import Mathlib

/-!
Verification development for the ERDTS Synthea ETL pipeline
(`etl/mappers.py` and `etl/transform.py`).

The Python functions are shallowly embedded: pandas rows become Lean
structures, DataFrames become lists of rows (with a distinguished
no-columns empty frame for `pd.DataFrame()`), Python floats appearing in
static tables become exact rationals, and the Python `for`-loops become
structural recursions carrying their accumulators explicitly.  CPython's
process-salted built-in `hash` cannot be embedded as a pure function of
the string alone, so every definition depending on it is parametrised by
the per-process hash function `pyHash : String → Int`.
-/

/- ===================== generic string helpers ===================== -/

/-- ASCII whitespace, the character class of Python's `str.split` / `str.strip`
and of `\s` in the `re` module (restricted to ASCII input). -/
def isSpaceChar (c : Char) : Bool :=
  c == ' ' || c == '\t' || c == '\n' || c == '\r' || c == Char.ofNat 11 || c == Char.ofNat 12

/-- Membership in the regex class `[a-zA-Z]`. -/
def isAlphaAsc (c : Char) : Bool :=
  ('a' ≤ c && c ≤ 'z') || ('A' ≤ c && c ≤ 'Z')

/-- Membership in the regex class `[0-9]`. -/
def isDigitAsc (c : Char) : Bool :=
  '0' ≤ c && c ≤ '9'

/-- Embedding of Python `str.lower()` (character-wise lowering; the inputs
handled by the pipeline are ASCII). -/
def strLower (s : String) : String :=
  String.mk (s.data.map Char.toLower)

/-- Whether the first list is a leading block of the second. -/
def startsWithL : List Char → List Char → Bool
  | [], _ => true
  | _ :: _, [] => false
  | a :: as, b :: bs => a == b && startsWithL as bs

/-- Embedding of the Python substring test `needle in hay`. -/
def containsSub (needle : List Char) : List Char → Bool
  | [] => needle.isEmpty
  | c :: rest => startsWithL needle (c :: rest) || containsSub needle rest

/-- Embedding of Python `str.strip()` (whitespace stripped from both ends). -/
def stripChars (s : List Char) : List Char :=
  ((s.dropWhile isSpaceChar).reverse.dropWhile isSpaceChar).reverse

/-- Embedding of Python slicing `s[:n]`. -/
def truncAt (n : Nat) (s : String) : String :=
  String.mk (s.data.take n)

/-- First whitespace-separated token of a string: `s.split()[0]` when
`s.split()` is non-empty, `none` otherwise. -/
def firstToken (cs : List Char) : Option (List Char) :=
  match cs.dropWhile isSpaceChar with
  | [] => none
  | c :: rest => some ((c :: rest).takeWhile (fun x => !isSpaceChar x))

/-- Embedding of Python `s.replace(sub, "")` for a non-empty pattern `sub`:
every occurrence is removed, scanning left to right. -/
def removeAllSub (sub : List Char) : List Char → List Char
  | [] => []
  | c :: rest =>
    if h : sub.isEmpty then c :: rest
    else if startsWithL sub (c :: rest) then removeAllSub sub ((c :: rest).drop sub.length)
    else c :: removeAllSub sub rest
termination_by l => l.length
decreasing_by
  · simp only [List.length_drop, List.length_cons]
    have hs : sub ≠ [] := by
      intro hnil
      rw [hnil] at h
      simp at h
    have : 0 < sub.length := List.length_pos.mpr hs
    omega
  · simp only [List.length_cons]
    omega

/- ===================== decimal formatting ===================== -/

/-- Character for one decimal digit. -/
def decChar (d : Nat) : Char := Char.ofNat (48 + d)

/-- Decimal digits of `n`, least significant first, with explicit fuel
(adequate whenever `n ≤ fuel`). -/
def decDigitsRev (fuel n : Nat) : List Nat :=
  match fuel with
  | 0 => []
  | fuel + 1 => if n < 10 then [n] else n % 10 :: decDigitsRev fuel (n / 10)

/-- Decimal character representation of `n`, most significant first (empty
for `0`; the pipeline only formats positive counters). -/
def decChars (n : Nat) : List Char :=
  ((decDigitsRev n n).map decChar).reverse

/-- Embedding of the Python format specifier `{n:05d}` for a natural
number: the decimal form left-padded with zeros to width five. -/
def format05 (n : Nat) : String :=
  String.mk (List.replicate (5 - (decChars n).length) '0' ++ decChars n)

/-- Value of a most-significant-first decimal digit string. -/
def decodeDec (cs : List Char) : Nat :=
  cs.foldl (fun a c => a * 10 + (c.toNat - 48)) 0

/-- Value of a least-significant-first decimal digit list. -/
def ofDigRev (ds : List Nat) : Nat :=
  ds.foldr (fun d a => 10 * a + d) 0

/-- Decoder for synthetic subject ids: drop the `SYN-` prefix and read the
remaining characters as a decimal numeral (leading zeros allowed). -/
def decodeSyn (s : String) : Nat :=
  decodeDec (s.data.drop 4)

/- ===================== mappers.py : patient mapping ===================== -/

/-- Row of `patients.csv` (the columns read by `map_patient`; a `none`
field is a pandas `NaN`, i.e. `pd.notna` is false). -/
structure PatientRow where
  Id : String
  BIRTHDATE : String := ""
  GENDER : String := ""
  RACE : Option String := none
  ETHNICITY : Option String := none
  MARITAL : Option String := none
  CITY : Option String := none
  STATE : Option String := none
  ZIP : Option String := none
  DEATHDATE : Option String := none
deriving DecidableEq

/-- ERDTS patient record produced by `map_patient`. -/
structure Patient where
  synthetic_id : String
  birth_date : String
  sex : String
  race : String
  ethnicity : String
  marital_status : Option String
  city : Option String
  state : Option String
  zip : Option String
  deceased : Bool
  deceased_date : Option String
deriving DecidableEq

/-- Keyword table of `_normalize_race` (an ordered dict in the source). -/
def race_map : List (String × String) :=
  [("white", "White"), ("black", "Black"), ("asian", "Asian"),
   ("native", "Native American"), ("hawaiian", "Pacific Islander"), ("other", "Other")]

/-- Ordered first-match scan of the race keyword table. -/
def raceLookup : List (String × String) → List Char → String
  | [], _ => "Unknown"
  | (key, value) :: rest, rl => if containsSub key.data rl then value else raceLookup rest rl

/-- Embedding of `_normalize_race`. -/
def normalize_race (race : Option String) : String :=
  match race with
  | none => "Unknown"
  | some r => raceLookup race_map (strLower r).data

/-- Embedding of `_normalize_ethnicity`. -/
def normalize_ethnicity (ethnicity : Option String) : String :=
  match ethnicity with
  | none => "Unknown"
  | some e =>
    let el := (strLower e).data.filter (fun c => c != ' ')
    if containsSub "hispanic".data el && !containsSub "non".data el then "Hispanic"
    else if containsSub "nonhispanic".data el then "Not Hispanic"
    else "Unknown"

/-- Embedding of `map_patient`: one Synthea patient row to the ERDTS
patient format, with synthetic id `SYN-` followed by the zero-padded
counter. -/
def map_patient (row : PatientRow) (index : Nat) : Patient :=
  { synthetic_id := "SYN-" ++ format05 index
    birth_date := row.BIRTHDATE
    sex := if row.GENDER = "M" then "male" else "female"
    race := normalize_race row.RACE
    ethnicity := normalize_ethnicity row.ETHNICITY
    marital_status := row.MARITAL
    city := row.CITY
    state := row.STATE
    zip := row.ZIP
    deceased := row.DEATHDATE.isSome
    deceased_date := row.DEATHDATE }

/- ===================== mappers.py : categorization tables ===================== -/

/-- Ordered keyword table of `_categorize_condition`. -/
def condition_categories : List (List String × String) :=
  [(["hypertension", "heart", "cardiac", "coronary", "atrial", "angina", "cardiomyopathy", "aortic", "arrhythmia"], "Cardiovascular"),
   (["diabetes", "thyroid", "metabolic", "obesity", "hyperlipidemia", "cholesterol", "insulin"], "Endocrine"),
   (["asthma", "copd", "bronchitis", "pneumonia", "respiratory", "lung", "pulmonary"], "Respiratory"),
   (["cancer", "carcinoma", "tumor", "neoplasm", "malignant", "lymphoma", "leukemia", "melanoma"], "Oncology"),
   (["depression", "anxiety", "bipolar", "schizophrenia", "mental", "psychiatric", "stress", "panic", "ptsd"], "Mental Health"),
   (["arthritis", "osteo", "fracture", "back pain", "joint", "musculoskeletal", "sprain", "strain"], "Musculoskeletal"),
   (["kidney", "renal", "urinary", "bladder", "cystitis", "nephro"], "Genitourinary"),
   (["gastritis", "reflux", "gerd", "liver", "hepatitis", "bowel", "colitis", "digestive", "intestin"], "Digestive"),
   (["stroke", "alzheimer", "dementia", "parkinson", "epilepsy", "seizure", "neuropathy", "migraine", "cerebr"], "Nervous System"),
   (["infection", "sepsis", "bacterial", "viral", "hiv", "tuberculosis", "pneumonia"], "Infectious"),
   (["anemia", "blood", "coagulation", "platelet", "hemophilia", "thrombocyt"], "Blood/Immune"),
   (["pregnancy", "prenatal", "childbirth", "miscarriage", "gestation", "fetal"], "Pregnancy"),
   (["dermatitis", "eczema", "psoriasis", "skin", "acne", "rash", "wound"], "Skin"),
   (["employment", "education", "housing", "social", "finding", "situation"], "Social/Administrative")]

/-- Ordered first-match scan shared by the three categorization functions:
return the label of the first pair one of whose keywords is a substring of
the (already lowered) text, else the default. -/
def firstLabel (table : List (List String × String)) (dflt : String) (descLower : List Char) : String :=
  match table with
  | [] => dflt
  | (keywords, label) :: rest =>
    if keywords.any (fun kw => containsSub kw.data descLower) then label
    else firstLabel rest dflt descLower

/-- Embedding of `_categorize_condition`. -/
def categorize_condition (description : String) : String :=
  firstLabel condition_categories "Other" (strLower description).data

/-- Embedding of `_estimate_prevalence`.  The source computes
`round(0.01 + (hash(code) % 30) / 100, 2)`; in exact arithmetic this is
`(1 + hash(code) % 30) / 100`.  CPython's built-in string `hash` is salted
per process, so it enters as the explicit parameter `pyHash`. -/
def estimate_prevalence (pyHash : String → Int) (code : String) : ℚ :=
  let hash_val : Int := pyHash code % 30
  (1 + (hash_val : ℚ)) / 100

/- ===================== mappers.py : condition codes ===================== -/

/-- Row of `conditions.csv` (union of the two column selections used by
the pipeline). -/
structure ConditionRow where
  PATIENT : String
  CODE : String
  DESCRIPTION : String := ""
  START : Option String := none
  STOP : Option String := none
deriving DecidableEq

/-- ERDTS condition catalog entry. -/
structure ConditionCode where
  code : String
  name : String
  snomedCode : String
  category : String
  prevalence : ℚ
deriving DecidableEq

/-- Boilerplate suffixes removed by `map_condition_code`. -/
def condition_suffixes : List String :=
  [" (disorder)", " (finding)", " (situation)", " (procedure)"]

/-- Embedding of `map_condition_code`. -/
def map_condition_code (pyHash : String → Int) (row : ConditionRow) : ConditionCode :=
  let description := row.DESCRIPTION
  let clean_name :=
    condition_suffixes.foldl (fun s suffix => String.mk (removeAllSub suffix.data s.data)) description
  { code := row.CODE
    name := truncAt 200 (String.mk (stripChars clean_name.data))
    snomedCode := row.CODE
    category := categorize_condition description
    prevalence := estimate_prevalence pyHash row.CODE }

/- ===================== mappers.py : medication codes ===================== -/

/-- Row of `medications.csv`. -/
structure MedicationRow where
  PATIENT : String
  CODE : String
  DESCRIPTION : String := ""
  START : Option String := none
  STOP : Option String := none
deriving DecidableEq

/-- ERDTS medication catalog entry. -/
structure MedicationCode where
  code : String
  name : String
  genericName : String
  drugClass : String
  rxnorm : String
deriving DecidableEq

/-- Leading part of the description matched by the anchored regular
expression of `_extract_generic_name`, namely one maximal run of ASCII
letters optionally followed by a whitespace run and a second letter run
(the pattern with one letter group, then an optional group of mandatory
whitespace and a second letter group; both character classes are greedy
and disjoint, so no backtracking arises). -/
def regexLeadingTokens (cs : List Char) : Option (List Char) :=
  let t1 := cs.takeWhile isAlphaAsc
  if t1.isEmpty then none
  else
    let r1 := cs.drop t1.length
    let ws := r1.takeWhile isSpaceChar
    let t2 := (r1.drop ws.length).takeWhile isAlphaAsc
    if !ws.isEmpty && !t2.isEmpty then some (t1 ++ ws ++ t2) else some t1

/-- Embedding of `_extract_generic_name`. -/
def extract_generic_name (description : String) : String :=
  match regexLeadingTokens description.data with
  | some g => strLower (String.mk g)
  | none =>
    match firstToken description.data with
    | some t => strLower (String.mk t)
    | none => "unknown"

/-- Ordered keyword table of `_categorize_drug`. -/
def drug_classes : List (List String × String) :=
  [(["lisinopril", "enalapril", "ramipril", "captopril", "benazepril"], "ACE Inhibitor"),
   (["losartan", "valsartan", "irbesartan", "olmesartan", "candesartan"], "ARB"),
   (["metoprolol", "atenolol", "carvedilol", "propranolol", "bisoprolol"], "Beta Blocker"),
   (["amlodipine", "nifedipine", "diltiazem", "verapamil"], "Calcium Channel Blocker"),
   (["hydrochlorothiazide", "furosemide", "spironolactone", "chlorthalidone", "bumetanide"], "Diuretic"),
   (["atorvastatin", "simvastatin", "rosuvastatin", "pravastatin", "lovastatin"], "Statin"),
   (["metformin", "glipizide", "glyburide", "pioglitazone", "sitagliptin", "empagliflozin"], "Antidiabetic"),
   (["insulin"], "Insulin"),
   (["warfarin", "apixaban", "rivaroxaban", "dabigatran", "heparin", "enoxaparin"], "Anticoagulant"),
   (["aspirin", "clopidogrel", "ticagrelor", "prasugrel"], "Antiplatelet"),
   (["omeprazole", "pantoprazole", "esomeprazole", "lansoprazole", "rabeprazole"], "Proton Pump Inhibitor"),
   (["sertraline", "fluoxetine", "escitalopram", "citalopram", "paroxetine"], "SSRI Antidepressant"),
   (["gabapentin", "pregabalin", "topiramate", "levetiracetam", "carbamazepine", "phenytoin", "valproic"], "Anticonvulsant"),
   (["albuterol", "salbutamol", "ipratropium", "tiotropium", "budesonide", "fluticasone"], "Respiratory"),
   (["penicillin", "amoxicillin", "azithromycin", "ciprofloxacin", "levofloxacin", "doxycycline", "cephalexin"], "Antibiotic"),
   (["acetaminophen", "ibuprofen", "naproxen", "diclofenac", "meloxicam", "celecoxib"], "Analgesic/NSAID"),
   (["oxycodone", "hydrocodone", "morphine", "fentanyl", "tramadol", "codeine"], "Opioid"),
   (["levothyroxine", "synthroid"], "Thyroid Hormone"),
   (["prednisone", "methylprednisolone", "dexamethasone", "hydrocortisone"], "Corticosteroid"),
   (["contraceptive", "levonorgestrel", "ethinyl estradiol", "norethindrone"], "Contraceptive")]

/-- Embedding of `_categorize_drug`. -/
def categorize_drug (description : String) : String :=
  firstLabel drug_classes "Other" (strLower description).data

/-- Embedding of `map_medication_code`. -/
def map_medication_code (row : MedicationRow) : MedicationCode :=
  { code := row.CODE
    name := truncAt 150 row.DESCRIPTION
    genericName := extract_generic_name row.DESCRIPTION
    drugClass := categorize_drug row.DESCRIPTION
    rxnorm := row.CODE }

/- ===================== mappers.py : lab codes ===================== -/

/-- Row of `observations.csv` (union of the two column selections used by
the pipeline). -/
structure ObsRow where
  PATIENT : String
  CODE : String
  DESCRIPTION : String := ""
  DATE : Option String := none
  VALUE : Option String := none
  UNITS : Option String := none
  TYPE : Option String := none
deriving DecidableEq

/-- Normal/critical bounds supplied by `_get_normal_range` (Python floats
of the static table as exact rationals). -/
structure NormalRange where
  normalLow : ℚ
  normalHigh : ℚ
  criticalLow : Option ℚ := none
  criticalHigh : Option ℚ := none
deriving DecidableEq

/-- Static reference-range table of `_get_normal_range`, in insertion
order of the Python dict. -/
def lab_ranges : List ((String × String) × NormalRange) :=
  [(("glucose", "mg"), { normalLow := 70, normalHigh := 100, criticalLow := some 50, criticalHigh := some 400 }),
   (("hemoglobin a1c", ""), { normalLow := 4, normalHigh := 28/5 }),
   (("creatinine", "mg"), { normalLow := 7/10, normalHigh := 13/10 }),
   (("cholesterol", "mg"), { normalLow := 0, normalHigh := 200 }),
   (("ldl", "mg"), { normalLow := 0, normalHigh := 100 }),
   (("hdl", "mg"), { normalLow := 40, normalHigh := 60 }),
   (("triglyceride", "mg"), { normalLow := 0, normalHigh := 150 }),
   (("hemoglobin", "g/dl"), { normalLow := 12, normalHigh := 35/2 }),
   (("platelet", ""), { normalLow := 150000, normalHigh := 400000 }),
   (("sodium", "mmol"), { normalLow := 136, normalHigh := 145 }),
   (("potassium", "mmol"), { normalLow := 7/2, normalHigh := 5, criticalLow := some (5/2), criticalHigh := some (13/2) })]

/-- Ordered scan of the reference-range table: the first entry whose
keyword matches the description and whose unit hint, when non-empty,
matches the unit supplies the bounds (a keyword match with a failing unit
hint falls through to later entries, as in the source). -/
def rangeLookup : List ((String × String) × NormalRange) → List Char → List Char → Option NormalRange
  | [], _, _ => none
  | ((keyword, unit_hint), values) :: rest, descLower, unitLower =>
    if containsSub keyword.data descLower && (unit_hint.isEmpty || containsSub unit_hint.data unitLower) then
      some values
    else rangeLookup rest descLower unitLower

/-- Embedding of `_get_normal_range`. -/
def get_normal_range (description unit : String) : Option NormalRange :=
  rangeLookup lab_ranges (strLower description).data (strLower unit).data

/-- Ordered keyword table of `_categorize_lab`. -/
def lab_categories : List (List String × String) :=
  [(["glucose", "hemoglobin a1c", "hba1c"], "Glucose/Diabetes"),
   (["cholesterol", "ldl", "hdl", "triglyceride", "lipid"], "Lipid Panel"),
   (["creatinine", "bun", "egfr", "urea"], "Kidney Function"),
   (["alt", "ast", "bilirubin", "alkaline phosphatase", "liver", "albumin"], "Liver Function"),
   (["hemoglobin", "hematocrit", "wbc", "rbc", "platelet", "mcv", "mch", "leukocyte", "erythrocyte"], "Hematology"),
   (["sodium", "potassium", "chloride", "bicarbonate", "calcium", "magnesium", "phosph"], "Electrolytes"),
   (["tsh", "t3", "t4", "thyroid"], "Thyroid"),
   (["troponin", "bnp", "prothrombin", "inr", "ptt"], "Cardiac/Coagulation"),
   (["urine", "urinalysis"], "Urinalysis"),
   (["ige", "allerg"], "Allergy"),
   (["blood pressure", "heart rate", "respiratory rate", "temperature", "oxygen", "bmi", "weight", "height", "pain"], "Vital Signs"),
   (["psa", "cancer", "tumor", "cea", "ca-125", "afp"], "Tumor Markers")]

/-- Embedding of `_categorize_lab`. -/
def categorize_lab (description : String) : String :=
  firstLabel lab_categories "Other" (strLower description).data

/-- ERDTS lab catalog entry; the four bound fields are present exactly
when `_get_normal_range` returned a table entry. -/
structure LabCode where
  code : String
  name : String
  loincCode : String
  category : String
  unit : String
  normalLow : Option ℚ := none
  normalHigh : Option ℚ := none
  criticalLow : Option ℚ := none
  criticalHigh : Option ℚ := none
deriving DecidableEq

/-- Embedding of `map_lab_code`. -/
def map_lab_code (row : ObsRow) : LabCode :=
  let description := row.DESCRIPTION
  let unit := match row.UNITS with
    | some u => u
    | none => ""
  let base : LabCode :=
    { code := row.CODE
      name := truncAt 150 description
      loincCode := row.CODE
      category := categorize_lab description
      unit := truncAt 20 unit }
  match get_normal_range description unit with
  | none => base
  | some r =>
    { base with
      normalLow := some r.normalLow
      normalHigh := some r.normalHigh
      criticalLow := r.criticalLow
      criticalHigh := r.criticalHigh }

/- ===================== mappers.py : relationship mapping ===================== -/

/-- Patient-condition relationship record. -/
structure PatientCondition where
  patient_synthetic_id : String
  condition_code : String
  onset_date : Option String
  resolution_date : Option String
deriving DecidableEq

/-- Embedding of `map_patient_condition`. -/
def map_patient_condition (synthetic_id : String) (row : ConditionRow) : PatientCondition :=
  { patient_synthetic_id := synthetic_id
    condition_code := row.CODE
    onset_date := row.START
    resolution_date := row.STOP }

/-- Patient-medication relationship record. -/
structure PatientMedication where
  patient_synthetic_id : String
  medication_code : String
  start_date : Option String
  end_date : Option String
deriving DecidableEq

/-- Embedding of `map_patient_medication`. -/
def map_patient_medication (synthetic_id : String) (row : MedicationRow) : PatientMedication :=
  { patient_synthetic_id := synthetic_id
    medication_code := row.CODE
    start_date := row.START
    end_date := row.STOP }

/-- Model of Python `float(s)` restricted to finite decimal literals:
optional surrounding ASCII whitespace, optional sign, a digit string with
optional fractional part, and an optional decimal exponent.  `none` is the
`ValueError` branch.  (The `inf`/`nan` words and underscore separators
accepted by CPython are outside the model; no pipeline claim involves
them.) -/
def pyFloat (s : String) : Option ℚ :=
  let cs := stripChars s.data
  let sgn : ℚ := match cs with
    | '-' :: _ => -1
    | _ => 1
  let cs1 : List Char := match cs with
    | '+' :: rest => rest
    | '-' :: rest => rest
    | _ => cs
  let ip := cs1.takeWhile isDigitAsc
  let rest1 := cs1.drop ip.length
  let fp : List Char := match rest1 with
    | '.' :: r => r.takeWhile isDigitAsc
    | _ => []
  let rest2 : List Char := match rest1 with
    | '.' :: r => r.drop (r.takeWhile isDigitAsc).length
    | _ => rest1
  if ip.length + fp.length = 0 then none
  else
    let mant : ℚ := (decodeDec ip : ℚ) + (decodeDec fp : ℚ) / (10 : ℚ) ^ fp.length
    match rest2 with
    | [] => some (sgn * mant)
    | e :: r =>
      if e == 'e' || e == 'E' then
        let pos : Bool := match r with
          | '-' :: _ => false
          | _ => true
        let r1 : List Char := match r with
          | '+' :: rr => rr
          | '-' :: rr => rr
          | _ => r
        let ed := r1.takeWhile isDigitAsc
        if ed.isEmpty || !(r1.drop ed.length).isEmpty then none
        else if pos then some (sgn * mant * (10 : ℚ) ^ decodeDec ed)
        else some (sgn * mant / (10 : ℚ) ^ decodeDec ed)
      else none

/-- Patient-lab relationship record. -/
structure PatientLab where
  patient_synthetic_id : String
  lab_code : String
  result_date : Option String
  value_numeric : Option ℚ
  value_text : Option String
  unit : Option String
deriving DecidableEq

/-- Embedding of `map_patient_lab`: a present value is parsed as a float;
on success both the numeric value and the truncated text are kept, on
`ValueError` only the truncated text (the numeric field stays `None`). -/
def map_patient_lab (synthetic_id : String) (row : ObsRow) : PatientLab :=
  let parsed : Option ℚ × Option String :=
    match row.VALUE with
    | none => (none, none)
    | some v =>
      match pyFloat v with
      | some q => (some q, some (truncAt 100 v))
      | none => (none, some (truncAt 100 v))
  { patient_synthetic_id := synthetic_id
    lab_code := row.CODE
    result_date := row.DATE
    value_numeric := parsed.1
    value_text := parsed.2
    unit := row.UNITS.map (truncAt 20) }

/- ===================== transform.py : source reader ===================== -/

/-- A pandas DataFrame as the pipeline sees it: either the column-less
empty frame `pd.DataFrame()` (produced by `load_synthea_csv` for a missing
file) or a frame with the expected columns and a list of rows. -/
inductive DataFrame (ρ : Type) where
  | noColumns : DataFrame ρ
  | table : List ρ → DataFrame ρ
deriving DecidableEq

/-- Embedding of `load_synthea_csv`: a missing file yields the column-less
empty frame (after printing a warning), a present file yields its rows. -/
def load_synthea_csv {ρ : Type} (file : Option (List ρ)) : DataFrame ρ :=
  match file with
  | none => DataFrame.noColumns
  | some rows => DataFrame.table rows

/-- Embedding of the pandas `DataFrame.empty` test. -/
def DataFrame.isEmpty {ρ : Type} : DataFrame ρ → Bool
  | .noColumns => true
  | .table rows => rows.isEmpty

/-- Rows yielded by `df.iterrows()` (none for the column-less frame). -/
def DataFrame.rowList {ρ : Type} : DataFrame ρ → List ρ
  | .noColumns => []
  | .table rows => rows

/- ===================== transform.py : identity mapper ===================== -/

/-- Embedding of a Python dict update `m[k] = v`: overwrite in place if the
key exists (its position is kept), else append a new entry. -/
def dictInsert (m : List (String × String)) (k v : String) : List (String × String) :=
  if k ∈ m.map Prod.fst then m.map (fun p => if p.1 = k then (k, v) else p)
  else m ++ [(k, v)]

/-- Embedding of a Python dict lookup `m[k]` / `k in m`. -/
def dictLookup (m : List (String × String)) (k : String) : Option String :=
  (m.find? (fun p => p.1 == k)).map Prod.snd

/-- Loop body of `transform_patients`: `idx` is the running 0-based row
counter of `df.head(limit).iterrows()`. -/
def transformLoop :
    Nat → List PatientRow → List Patient → List (String × String) →
    List Patient × List (String × String)
  | _, [], patients, id_mapping => (patients, id_mapping)
  | idx, row :: rest, patients, id_mapping =>
    let patient := map_patient row (idx + 1)
    transformLoop (idx + 1) rest (patients ++ [patient])
      (dictInsert id_mapping row.Id patient.synthetic_id)

/-- Embedding of `transform_patients`: the first `limit` rows in stream
order, producing the patient list and the synthea-id to synthetic-id
mapping. -/
def transform_patients (df : List PatientRow) (limit : Nat) :
    List Patient × List (String × String) :=
  transformLoop 0 (df.take limit) [] []

/-- Position of the last row of the list whose `Id` equals `key` (used to
state which entry survives in the dict after duplicate inserts). -/
def lastIdxOf (key : String) : List PatientRow → Option Nat
  | [] => none
  | r :: rs =>
    match lastIdxOf key rs with
    | some j => some (j + 1)
    | none => if r.Id = key then some 0 else none

/- ===================== transform.py : code catalog builders ===================== -/

/-- First-occurrence deduplication by key, with the set of already seen
keys explicit (the semantics of pandas `drop_duplicates(subset=[k])`,
which keeps the first row of each key group). -/
def dedupFirstByAux {ρ : Type} (key : ρ → String) (seen : List String) : List ρ → List ρ
  | [] => []
  | r :: rs =>
    if key r ∈ seen then dedupFirstByAux key seen rs
    else r :: dedupFirstByAux key (key r :: seen) rs

/-- Embedding of `drop_duplicates(subset=["CODE"])` on a row list. -/
def dedupFirstBy {ρ : Type} (key : ρ → String) (rows : List ρ) : List ρ :=
  dedupFirstByAux key [] rows

/-- Embedding of `extract_condition_codes`.  The first statement evaluates
`df["PATIENT"]`, which raises `KeyError` on the column-less empty frame
that `load_synthea_csv` returns for a missing file. -/
def extract_condition_codes (pyHash : String → Int) (df : DataFrame ConditionRow)
    (patient_synthea_ids : List String) : Except String (List ConditionCode) :=
  match df with
  | .noColumns => .error "KeyError: PATIENT"
  | .table rows =>
    let filtered := rows.filter (fun r => r.PATIENT ∈ patient_synthea_ids)
    let unique_codes := dedupFirstBy (fun r => r.CODE) filtered
    .ok (unique_codes.map (map_condition_code pyHash))

/-- Embedding of `extract_medication_codes` (same shape as the condition
extraction, including the `KeyError` on a column-less frame). -/
def extract_medication_codes (df : DataFrame MedicationRow)
    (patient_synthea_ids : List String) : Except String (List MedicationCode) :=
  match df with
  | .noColumns => .error "KeyError: PATIENT"
  | .table rows =>
    let filtered := rows.filter (fun r => r.PATIENT ∈ patient_synthea_ids)
    let unique_codes := dedupFirstBy (fun r => r.CODE) filtered
    .ok (unique_codes.map map_medication_code)

/-- Conditional insertion into the `unique_labs` dict: keep the existing
entry if the code was already seen (`if code not in unique_labs`). -/
def labDictIns (m : List (String × LabCode)) (row : ObsRow) : List (String × LabCode) :=
  if row.CODE ∈ m.map Prod.fst then m else m ++ [(row.CODE, map_lab_code row)]

/-- Folding `labDictIns` over a plain row list (proof-side normal form of
the chunk processing). -/
def labFoldIns (m : List (String × LabCode)) (rows : List ObsRow) : List (String × LabCode) :=
  rows.foldl labDictIns m

/-- One chunk of `extract_lab_codes`: filter to the cohort, drop duplicate
codes within the chunk, then insert each remaining row into the running
dict if its code is new. -/
def labCodesChunk (patient_synthea_ids : List String) (unique_labs : List (String × LabCode))
    (chunk : List ObsRow) : List (String × LabCode) :=
  let filtered := chunk.filter (fun r => r.PATIENT ∈ patient_synthea_ids)
  (dedupFirstBy (fun r => r.CODE) filtered).foldl labDictIns unique_labs

/-- Chunk loop of `extract_lab_codes`. -/
def labCodesLoop (patient_synthea_ids : List String) :
    List (String × LabCode) → List (List ObsRow) → List (String × LabCode)
  | unique_labs, [] => unique_labs
  | unique_labs, chunk :: chunks =>
    labCodesLoop patient_synthea_ids (labCodesChunk patient_synthea_ids unique_labs chunk) chunks

/-- Consecutive chunks of at most `size` rows, as produced by
`pd.read_csv(..., chunksize=size)` (the callers pass positive sizes). -/
def chunkList {ρ : Type} (size : Nat) : List ρ → List (List ρ)
  | [] => []
  | x :: xs => ((x :: xs).take size) :: chunkList size (xs.drop (size - 1))
termination_by l => l.length
decreasing_by
  simp only [List.length_drop, List.length_cons]
  omega

/-- Embedding of `extract_lab_codes`: a missing `observations.csv` yields
`[]` after a warning; otherwise the file is processed in chunks and the
values of the `unique_labs` dict are returned in insertion order. -/
def extract_lab_codes (observations : Option (List ObsRow))
    (patient_synthea_ids : List String) (chunk_size : Nat) : List LabCode :=
  match observations with
  | none => []
  | some rows =>
    (labCodesLoop patient_synthea_ids [] (chunkList chunk_size rows)).map Prod.snd

/- ===================== transform.py : relationship builders ===================== -/

/-- Embedding of `build_patient_conditions`: rows whose subject is not a
key of the id mapping are skipped (`continue`); the others are mapped with
the looked-up synthetic id.  `df.iterrows()` yields nothing on the
column-less frame, so a missing file produces `[]` here. -/
def build_patient_conditions (df : DataFrame ConditionRow)
    (id_mapping : List (String × String)) : List PatientCondition :=
  df.rowList.filterMap (fun row =>
    match dictLookup id_mapping row.PATIENT with
    | none => none
    | some sid => some (map_patient_condition sid row))

/-- Embedding of `build_patient_medications`. -/
def build_patient_medications (df : DataFrame MedicationRow)
    (id_mapping : List (String × String)) : List PatientMedication :=
  df.rowList.filterMap (fun row =>
    match dictLookup id_mapping row.PATIENT with
    | none => none
    | some sid => some (map_patient_medication sid row))

/-- Row loop of one chunk of `build_patient_labs`: stop (`break`) once the
accumulated output reaches `max_records`; skip rows outside the cohort
(membership in `synthea_ids = set(id_mapping)` is lookup success). -/
def labsChunkLoop (id_mapping : List (String × String)) (max_records : Nat) :
    List PatientLab → List ObsRow → List PatientLab
  | relationships, [] => relationships
  | relationships, row :: rest =>
    if max_records ≤ relationships.length then relationships
    else
      match dictLookup id_mapping row.PATIENT with
      | none => labsChunkLoop id_mapping max_records relationships rest
      | some sid =>
        labsChunkLoop id_mapping max_records
          (relationships ++ [map_patient_lab sid row]) rest

/-- Chunk loop of `build_patient_labs`: stop reading chunks (`break`) once
the accumulated output reaches `max_records`. -/
def labsLoop (id_mapping : List (String × String)) (max_records : Nat) :
    List PatientLab → List (List ObsRow) → List PatientLab
  | relationships, [] => relationships
  | relationships, chunk :: chunks =>
    if max_records ≤ relationships.length then relationships
    else labsLoop id_mapping max_records
      (labsChunkLoop id_mapping max_records relationships chunk) chunks

/-- Embedding of `build_patient_labs`: missing `observations.csv` yields
`[]` after a warning; otherwise chunked processing under the record cap. -/
def build_patient_labs (observations : Option (List ObsRow))
    (id_mapping : List (String × String)) (max_records chunk_size : Nat) : List PatientLab :=
  match observations with
  | none => []
  | some rows => labsLoop id_mapping max_records [] (chunkList chunk_size rows)

/- ===================== transform.py : main ===================== -/

/-- The input directory as the pipeline reads it: `none` is a missing
file. -/
structure InputDir where
  patients : Option (List PatientRow) := none
  conditions : Option (List ConditionRow) := none
  medications : Option (List MedicationRow) := none
  observations : Option (List ObsRow) := none

/-- The seven output files written in phase 8. -/
structure Outputs where
  condition_codes : List ConditionCode
  medication_codes : List MedicationCode
  lab_codes : List LabCode
  patients : List Patient
  patient_conditions : List PatientCondition
  patient_medications : List PatientMedication
  patient_labs : List PatientLab
deriving DecidableEq

/-- Embedding of `main` (phases 1-8): `.error` is an abort with nonzero
exit (either the explicit `sys.exit(1)` on an empty/missing patients file
or an uncaught exception), in which case no output file has been written,
since all writes happen in phase 8. -/
def mainModel (pyHash : String → Int) (inp : InputDir)
    (patient_limit lab_limit : Nat) : Except String Outputs :=
  let patients_df := load_synthea_csv inp.patients
  if patients_df.isEmpty then .error "No patients found. Aborting."
  else
    let pm := transform_patients patients_df.rowList patient_limit
    let synthea_ids := pm.2.map Prod.fst
    match extract_condition_codes pyHash (load_synthea_csv inp.conditions) synthea_ids with
    | .error e => .error e
    | .ok condition_codes =>
      match extract_medication_codes (load_synthea_csv inp.medications) synthea_ids with
      | .error e => .error e
      | .ok medication_codes =>
        .ok
          { condition_codes := condition_codes
            medication_codes := medication_codes
            lab_codes := extract_lab_codes inp.observations synthea_ids 50000
            patients := pm.1
            patient_conditions := build_patient_conditions (load_synthea_csv inp.conditions) pm.2
            patient_medications := build_patient_medications (load_synthea_csv inp.medications) pm.2
            patient_labs := build_patient_labs inp.observations pm.2 lab_limit 25000 }

/- ===================== spec-side model for generic names ===================== -/

/-- Restatement of the specified generic-name extraction, written from the
spec sentence: the leading run of one or two whitespace-separated
alphabetic tokens before the first non-alphabetic token, lower-cased;
falling back to the first whitespace-separated token lower-cased, and to
"unknown" when there is no token at all. -/
def generic_name_spec (s : String) : String :=
  let cs := s.data
  let t1 := cs.takeWhile isAlphaAsc
  if t1.isEmpty then
    match firstToken cs with
    | some t => strLower (String.mk t)
    | none => "unknown"
  else
    let r1 := cs.drop t1.length
    let ws := r1.takeWhile isSpaceChar
    let t2 := (r1.drop ws.length).takeWhile isAlphaAsc
    if ws.isEmpty || t2.isEmpty then strLower (String.mk t1)
    else strLower (String.mk (t1 ++ ws ++ t2))

/- ===================== sample inputs ===================== -/

/-- Ten subject rows with pairwise distinct source identifiers. -/
def samplePatients10 : List PatientRow :=
  [{ Id := "u01" }, { Id := "u02" }, { Id := "u03" }, { Id := "u04" }, { Id := "u05" },
   { Id := "u06" }, { Id := "u07" }, { Id := "u08" }, { Id := "u09" }, { Id := "u10" }]

/-- Two subject rows sharing one source identifier. -/
def samplePatientsDup : List PatientRow :=
  [{ Id := "u1", GENDER := "M" }, { Id := "u1", GENDER := "F" }]

/-- Two observation rows with the same code, to be split across chunks. -/
def sampleObsA : ObsRow :=
  { PATIENT := "u1", CODE := "2339-0", DESCRIPTION := "Glucose", VALUE := some "98.6",
    UNITS := some "mg/dL", DATE := some "2020-01-01" }

/-- Later observation row bearing the same code as `sampleObsA`. -/
def sampleObsB : ObsRow :=
  { PATIENT := "u1", CODE := "2339-0", DESCRIPTION := "Glucose retest", VALUE := some "Negative",
    UNITS := some "mg/dL", DATE := some "2020-02-01" }

/-- A condition row for the cohort member `u1`. -/
def sampleCondRow : ConditionRow :=
  { PATIENT := "u1", CODE := "59621000", DESCRIPTION := "Essential hypertension (disorder)",
    START := some "2019-05-01" }

/-- A condition row referencing a subject outside the cohort. -/
def sampleCondRowOutside : ConditionRow :=
  { PATIENT := "zz", CODE := "44054006", DESCRIPTION := "Diabetes mellitus type 2 (disorder)" }

/- ===================== lemmas : decimal ids ===================== -/

/-- Round trip of the fuelled digit expansion. -/
theorem ofDigRev_decDigitsRev (fuel : Nat) :
    ∀ n : Nat, n ≤ fuel → ofDigRev (decDigitsRev fuel n) = n := by
  induction fuel with
  | zero =>
    intro n hn
    interval_cases n
    rfl
  | succ fuel ih =>
    intro n hn
    by_cases h10 : n < 10
    · simp [decDigitsRev, h10, ofDigRev]
    · have hdiv : n / 10 ≤ fuel := by
        have : n / 10 < n := Nat.div_lt_self (by omega) (by omega)
        omega
      simp only [decDigitsRev, h10, if_false, ofDigRev, List.foldr_cons]
      have := ih (n / 10) hdiv
      simp only [ofDigRev] at this
      rw [this]
      omega

/-- Every produced digit is below ten. -/
theorem decDigitsRev_lt_ten (fuel : Nat) :
    ∀ n d : Nat, d ∈ decDigitsRev fuel n → d < 10 := by
  induction fuel with
  | zero => intro n d hd; simp [decDigitsRev] at hd
  | succ fuel ih =>
    intro n d hd
    by_cases h10 : n < 10
    · simp [decDigitsRev, h10] at hd
      omega
    · simp only [decDigitsRev, h10, if_false, List.mem_cons] at hd
      rcases hd with h | h
      · omega
      · exact ih _ _ h

/-- Reading a digit character back as a number. -/
theorem decChar_toNat : ∀ d : Nat, d < 10 → (decChar d).toNat - 48 = d := by decide

/-- Folding the decimal decoder over digit characters computes the
little-endian digit value. -/
theorem foldr_decode_eq_ofDigRev :
    ∀ ds : List Nat, (∀ d ∈ ds, d < 10) →
      List.foldr (fun d a => a * 10 + ((decChar d).toNat - 48)) 0 ds = ofDigRev ds := by
  intro ds
  induction ds with
  | nil => intro _; simp [ofDigRev]
  | cons d rest ih =>
    intro hlt
    have hd : d < 10 := hlt d (List.mem_cons_self d rest)
    have hrest : ∀ x ∈ rest, x < 10 := fun x hx => hlt x (List.mem_cons_of_mem d hx)
    have h1 : List.foldr (fun d a => a * 10 + ((decChar d).toNat - 48)) 0 (d :: rest)
        = ofDigRev rest * 10 + d := by
      rw [List.foldr_cons, ih hrest, decChar_toNat d hd]
    have h2 : ofDigRev (d :: rest) = 10 * ofDigRev rest + d := rfl
    omega

/-- The decoder inverts the decimal character representation. -/
theorem decodeDec_decChars (n : Nat) : decodeDec (decChars n) = n := by
  simp only [decodeDec, decChars, List.foldl_reverse, List.foldr_map]
  rw [foldr_decode_eq_ofDigRev _ (fun d hd => decDigitsRev_lt_ten n n d hd)]
  exact ofDigRev_decDigitsRev n n (Nat.le_refl n)

/-- Leading zero characters do not change the decoded value. -/
theorem decodeDec_replicate_zero (k : Nat) (cs : List Char) :
    decodeDec (List.replicate k '0' ++ cs) = decodeDec cs := by
  induction k with
  | zero => simp
  | succ k ih => simpa [decodeDec, List.replicate_succ] using ih

/-- The synthetic-id decoder inverts the id format. -/
theorem decodeSyn_format05 (n : Nat) : decodeSyn ("SYN-" ++ format05 n) = n := by
  have hdata : ("SYN-" ++ format05 n).data = "SYN-".data ++ (format05 n).data :=
    String.data_append _ _
  have h4 : "SYN-".data.length = 4 := rfl
  simp only [decodeSyn, hdata]
  rw [show (4 : Nat) = "SYN-".data.length from rfl, List.drop_left]
  show decodeDec (List.replicate (5 - (decChars n).length) '0' ++ decChars n) = n
  rw [decodeDec_replicate_zero, decodeDec_decChars]

/-- Synthetic ids of distinct counters are distinct. -/
theorem synthId_injective (a b : Nat)
    (h : "SYN-" ++ format05 a = "SYN-" ++ format05 b) : a = b := by
  have := congrArg decodeSyn h
  rwa [decodeSyn_format05, decodeSyn_format05] at this

/- ===================== lemmas : dict operations ===================== -/

/-- Looking up the key just written. -/
theorem dictLookup_dictInsert_self (m : List (String × String)) (k v : String) :
    dictLookup (dictInsert m k v) k = some v := by
  unfold dictInsert
  by_cases hk : k ∈ m.map Prod.fst
  · simp only [hk, if_true]
    induction m with
    | nil => simp at hk
    | cons p rest ih =>
      by_cases hp : p.1 = k
      · simp [dictLookup, List.find?_cons, hp]
      · simp only [List.map_cons, List.mem_cons] at hk
        rcases hk with h | h
        · exact absurd h.symm hp
        · simpa [dictLookup, List.find?_cons, hp] using ih h
  · simp only [hk, if_false]
    induction m with
    | nil => simp [dictLookup]
    | cons p rest ih =>
      have hp : p.1 ≠ k := by
        intro he
        exact hk (by simp [he])
      have hk' : k ∉ rest.map Prod.fst := fun h => hk (by simp [h])
      simpa [dictLookup, List.find?_cons, hp] using ih hk'

/-- Overwriting the entries of one key does not change lookups of other
keys. -/
theorem dictLookup_map_overwrite (m : List (String × String)) (k v k' : String)
    (hne : k' ≠ k) :
    dictLookup (m.map (fun p => if p.1 = k then (k, v) else p)) k' = dictLookup m k' := by
  induction m with
  | nil => rfl
  | cons p rest ih =>
    by_cases hp : p.1 = k
    · have h1 : ¬ (k == k') = true := by
        simp only [beq_iff_eq]
        exact fun h => hne h.symm
      have h2 : ¬ (p.1 == k') = true := by
        simp only [beq_iff_eq, hp]
        exact fun h => hne h.symm
      simpa [dictLookup, List.find?_cons, hp, h1, h2] using ih
    · by_cases hq : p.1 = k'
      · simp [dictLookup, List.find?_cons, hp, hq, hne]
      · simpa [dictLookup, List.find?_cons, hp, hq] using ih

/-- Appending an entry of another key does not change a lookup. -/
theorem dictLookup_append_single_ne (m : List (String × String)) (k v k' : String)
    (hne : k' ≠ k) : dictLookup (m ++ [(k, v)]) k' = dictLookup m k' := by
  induction m with
  | nil =>
    have h1 : ¬ (k == k') = true := by
      simp only [beq_iff_eq]
      exact fun h => hne h.symm
    simp [dictLookup, List.find?_cons, h1]
  | cons p rest ih =>
    by_cases hq : p.1 = k'
    · simp [dictLookup, List.find?_cons, hq]
    · simpa [dictLookup, List.find?_cons, hq] using ih

/-- Inserting one key does not change the others. -/
theorem dictLookup_dictInsert_ne (m : List (String × String)) (k v k' : String)
    (hne : k' ≠ k) : dictLookup (dictInsert m k v) k' = dictLookup m k' := by
  unfold dictInsert
  by_cases hk : k ∈ m.map Prod.fst
  · simpa [hk] using dictLookup_map_overwrite m k v k' hne
  · simpa [hk] using dictLookup_append_single_ne m k v k' hne

/-- Size change of a dict write: an existing key keeps the size, a new key
adds one entry. -/
theorem dictInsert_length (m : List (String × String)) (k v : String) :
    (dictInsert m k v).length =
      if k ∈ m.map Prod.fst then m.length else m.length + 1 := by
  unfold dictInsert
  by_cases hk : k ∈ m.map Prod.fst <;> simp [hk]

/-- Values after a dict write are old values or the written value. -/
theorem dictInsert_values (m : List (String × String)) (k v w : String)
    (hw : w ∈ (dictInsert m k v).map Prod.snd) : w ∈ m.map Prod.snd ∨ w = v := by
  unfold dictInsert at hw
  by_cases hk : k ∈ m.map Prod.fst
  · simp only [hk, if_true, List.map_map, List.mem_map] at hw
    obtain ⟨p, hp, he⟩ := hw
    by_cases hx : p.1 = k
    · right
      simp [hx] at he
      exact he.symm
    · left
      simp only [hx, if_false, Function.comp_apply] at he
      exact List.mem_map.mpr ⟨p, hp, he⟩
  · simp only [hk, if_false, List.map_append, List.mem_append] at hw
    rcases hw with h | h
    · exact Or.inl h
    · right
      simpa using h
/-- A successful lookup returns a stored value. -/
theorem dictLookup_mem_values (m : List (String × String)) (k v : String)
    (h : dictLookup m k = some v) : v ∈ m.map Prod.snd := by
  unfold dictLookup at h
  cases hf : List.find? (fun p => p.1 == k) m with
  | none => simp [hf] at h
  | some p =>
    simp only [hf] at h
    have hv : p.2 = v := by simpa using h
    have hm := List.mem_of_find?_eq_some hf
    exact hv ▸ List.mem_map.mpr ⟨p, hm, rfl⟩

/-- A lookup fails exactly on keys not stored in the dict. -/
theorem dictLookup_eq_none_iff (m : List (String × String)) (k : String) :
    dictLookup m k = none ↔ k ∉ m.map Prod.fst := by
  unfold dictLookup
  constructor
  · intro h hk
    cases hf : List.find? (fun p => p.1 == k) m with
    | some p => simp [hf] at h
    | none =>
      rw [List.find?_eq_none] at hf
      obtain ⟨p, hp, he⟩ := List.mem_map.mp hk
      exact hf p hp (by simp [he])
  · intro hk
    cases hf : List.find? (fun p => p.1 == k) m with
    | none => simp
    | some p =>
      have hm := List.mem_of_find?_eq_some hf
      have hp := List.find?_some hf
      simp only [beq_iff_eq] at hp
      exact absurd (List.mem_map.mpr ⟨p, hm, hp⟩) hk

/- ===================== lemmas : identity mapper loop ===================== -/

/-- Keys after a dict write contain the written key. -/
theorem dictInsert_keys_self (m : List (String × String)) (k v : String) :
    k ∈ (dictInsert m k v).map Prod.fst := by
  unfold dictInsert
  by_cases hk : k ∈ m.map Prod.fst
  · simp only [hk, if_true, List.map_map, List.mem_map]
    obtain ⟨p, hp, he⟩ := List.mem_map.mp hk
    by_cases hx : p.1 = k
    · exact ⟨p, hp, by simp [hx]⟩
    · exact absurd he hx
  · simp [hk]

/-- Keys after a dict write contain the previous keys. -/
theorem dictInsert_keys_mono (m : List (String × String)) (k v k' : String)
    (h : k' ∈ m.map Prod.fst) : k' ∈ (dictInsert m k v).map Prod.fst := by
  unfold dictInsert
  by_cases hk : k ∈ m.map Prod.fst
  · simp only [hk, if_true, List.map_map, List.mem_map]
    obtain ⟨p, hp, he⟩ := List.mem_map.mp h
    by_cases hx : p.1 = k
    · exact ⟨p, hp, by simp [hx, hx ▸ he]⟩
    · have hne : k' ≠ k := fun hh => hx (he.trans hh)
      exact ⟨p, hp, by simp [hx, he, hne]⟩
  · simp only [hk, if_false, List.map_append, List.mem_append]
    exact Or.inl h

/-- Writing a fresh key appends it to the key list. -/
theorem dictInsert_keys_new (m : List (String × String)) (k v : String)
    (hk : k ∉ m.map Prod.fst) :
    (dictInsert m k v).map Prod.fst = m.map Prod.fst ++ [k] := by
  unfold dictInsert
  simp [hk]

/-- The patient list built by the loop: the accumulator followed by one
mapped patient per row, at consecutive counter values. -/
theorem transformLoop_fst (rows : List PatientRow) :
    ∀ (i : Nat) (ps : List Patient) (m : List (String × String)),
      (transformLoop i rows ps m).1
        = ps ++ (List.enumFrom i rows).map (fun p => map_patient p.2 (p.1 + 1)) := by
  induction rows with
  | nil => intro i ps m; simp [transformLoop]
  | cons r rs ih =>
    intro i ps m
    show (transformLoop (i + 1) rs (ps ++ [map_patient r (i + 1)]) _).1 = _
    rw [ih]
    simp [List.enumFrom]

/-- The synthetic ids built by the loop are the consecutive formatted
counters. -/
theorem transformLoop_ids (rows : List PatientRow) :
    ∀ (i : Nat) (ps : List Patient) (m : List (String × String)),
      (transformLoop i rows ps m).1.map Patient.synthetic_id
        = ps.map Patient.synthetic_id
          ++ (List.range' (i + 1) rows.length).map (fun t => "SYN-" ++ format05 t) := by
  induction rows with
  | nil => intro i ps m; simp [transformLoop]
  | cons r rs ih =>
    intro i ps m
    show (transformLoop (i + 1) rs (ps ++ [map_patient r (i + 1)]) _).1.map _ = _
    rw [ih]
    simp [List.range'_succ, map_patient]

/-- The id mapping after the loop: a key maps to the synthetic id of its
last row, earlier entries being overwritten. -/
theorem transformLoop_lookup (rows : List PatientRow) :
    ∀ (i : Nat) (ps : List Patient) (m : List (String × String)) (key : String),
      dictLookup (transformLoop i rows ps m).2 key
        = match lastIdxOf key rows with
          | some j => some ("SYN-" ++ format05 (i + j + 1))
          | none => dictLookup m key := by
  induction rows with
  | nil => intro i ps m key; simp [transformLoop, lastIdxOf]
  | cons r rs ih =>
    intro i ps m key
    show dictLookup (transformLoop (i + 1) rs (ps ++ [map_patient r (i + 1)])
        (dictInsert m r.Id (map_patient r (i + 1)).synthetic_id)).2 key = _
    rw [ih]
    cases hl : lastIdxOf key rs with
    | some j =>
      have harg : i + 1 + j + 1 = i + (j + 1) + 1 := by omega
      simp [lastIdxOf, hl, harg]
    | none =>
      by_cases hr : r.Id = key
      · subst hr
        simp [lastIdxOf, hl, dictLookup_dictInsert_self, map_patient]
      · have : dictLookup (dictInsert m r.Id (map_patient r (i + 1)).synthetic_id) key
            = dictLookup m key :=
          dictLookup_dictInsert_ne m r.Id _ key (fun h => hr h.symm)
        simp [lastIdxOf, hl, hr, this]

/-- The id mapping never has more entries than rows were processed. -/
theorem transformLoop_len_le (rows : List PatientRow) :
    ∀ (i : Nat) (ps : List Patient) (m : List (String × String)),
      (transformLoop i rows ps m).2.length ≤ m.length + rows.length := by
  induction rows with
  | nil => intro i ps m; simp [transformLoop]
  | cons r rs ih =>
    intro i ps m
    show (transformLoop (i + 1) rs (ps ++ [map_patient r (i + 1)]) _).2.length ≤ _
    have h1 := ih (i + 1) (ps ++ [map_patient r (i + 1)])
      (dictInsert m r.Id (map_patient r (i + 1)).synthetic_id)
    have h2 : (dictInsert m r.Id (map_patient r (i + 1)).synthetic_id).length ≤ m.length + 1 := by
      rw [dictInsert_length]
      by_cases hk : r.Id ∈ m.map Prod.fst <;> simp [hk]
    simp only [List.length_cons]
    omega

/-- With pairwise distinct fresh row ids, every row adds exactly one
mapping entry. -/
theorem transformLoop_len_nodup (rows : List PatientRow) :
    ∀ (i : Nat) (ps : List Patient) (m : List (String × String)),
      (rows.map PatientRow.Id).Nodup → (∀ r ∈ rows, r.Id ∉ m.map Prod.fst) →
      (transformLoop i rows ps m).2.length = m.length + rows.length := by
  induction rows with
  | nil => intro i ps m _ _; simp [transformLoop]
  | cons r rs ih =>
    intro i ps m hnd hfresh
    show (transformLoop (i + 1) rs (ps ++ [map_patient r (i + 1)]) _).2.length = _
    have hrId : r.Id ∉ m.map Prod.fst := hfresh r (List.mem_cons_self r rs)
    have hnd' : (rs.map PatientRow.Id).Nodup := (List.nodup_cons.mp hnd).2
    have hhead : r.Id ∉ rs.map PatientRow.Id := (List.nodup_cons.mp hnd).1
    have hfresh' : ∀ r' ∈ rs, r'.Id ∉
        (dictInsert m r.Id (map_patient r (i + 1)).synthetic_id).map Prod.fst := by
      intro r' hr'
      rw [dictInsert_keys_new m _ _ hrId]
      simp only [List.mem_append, List.mem_singleton]
      rintro (h | h)
      · exact hfresh r' (List.mem_cons_of_mem r hr') h
      · exact hhead (h ▸ List.mem_map.mpr ⟨r', hr', rfl⟩)
    rw [ih (i + 1) (ps ++ [map_patient r (i + 1)]) _ hnd' hfresh']
    rw [dictInsert_length]
    simp [hrId]
    omega

/-- If some row id is already a key, the final mapping is strictly smaller
than one entry per row. -/
theorem transformLoop_len_lt_of_mem (rows : List PatientRow) :
    ∀ (i : Nat) (ps : List Patient) (m : List (String × String)),
      (∃ r ∈ rows, r.Id ∈ m.map Prod.fst) →
      (transformLoop i rows ps m).2.length < m.length + rows.length := by
  induction rows with
  | nil => intro i ps m h; simp at h
  | cons r rs ih =>
    intro i ps m h
    show (transformLoop (i + 1) rs (ps ++ [map_patient r (i + 1)]) _).2.length < _
    obtain ⟨r', hr', hmem⟩ := h
    rcases List.mem_cons.mp hr' with rfl | hr'
    · have hlen : (dictInsert m r'.Id (map_patient r' (i + 1)).synthetic_id).length
          = m.length := by
        rw [dictInsert_length]
        simp [hmem]
      have := transformLoop_len_le rs (i + 1) (ps ++ [map_patient r' (i + 1)])
        (dictInsert m r'.Id (map_patient r' (i + 1)).synthetic_id)
      simp only [List.length_cons]
      omega
    · have hmem' : r'.Id ∈
          (dictInsert m r.Id (map_patient r (i + 1)).synthetic_id).map Prod.fst :=
        dictInsert_keys_mono m _ _ _ hmem
      have hlt := ih (i + 1) (ps ++ [map_patient r (i + 1)]) _ ⟨r', hr', hmem'⟩
      have hle : (dictInsert m r.Id (map_patient r (i + 1)).synthetic_id).length
          ≤ m.length + 1 := by
        rw [dictInsert_length]
        by_cases hk : r.Id ∈ m.map Prod.fst <;> simp [hk]
      simp only [List.length_cons]
      omega

/-- A duplicate row id makes the final mapping strictly smaller than one
entry per row. -/
theorem transformLoop_len_lt (rows : List PatientRow) :
    ∀ (i : Nat) (ps : List Patient) (m : List (String × String)),
      ¬ (rows.map PatientRow.Id).Nodup →
      (transformLoop i rows ps m).2.length < m.length + rows.length := by
  induction rows with
  | nil => intro i ps m h; simp at h
  | cons r rs ih =>
    intro i ps m h
    show (transformLoop (i + 1) rs (ps ++ [map_patient r (i + 1)]) _).2.length < _
    by_cases hdup : r.Id ∈ rs.map PatientRow.Id
    · obtain ⟨r', hr', he⟩ := List.mem_map.mp hdup
      have hk : r'.Id ∈
          (dictInsert m r.Id (map_patient r (i + 1)).synthetic_id).map Prod.fst :=
        he ▸ dictInsert_keys_self m r.Id _
      have hlt := transformLoop_len_lt_of_mem rs (i + 1) (ps ++ [map_patient r (i + 1)])
        _ ⟨r', hr', hk⟩
      have hle : (dictInsert m r.Id (map_patient r (i + 1)).synthetic_id).length
          ≤ m.length + 1 := by
        rw [dictInsert_length]
        by_cases hx : r.Id ∈ m.map Prod.fst <;> simp [hx]
      simp only [List.length_cons]
      omega
    · have hnd : ¬ (rs.map PatientRow.Id).Nodup := by
        intro hc
        exact h (by simp [List.nodup_cons, hdup, hc])
      have hlt := ih (i + 1) (ps ++ [map_patient r (i + 1)])
        (dictInsert m r.Id (map_patient r (i + 1)).synthetic_id) hnd
      have hle : (dictInsert m r.Id (map_patient r (i + 1)).synthetic_id).length
          ≤ m.length + 1 := by
        rw [dictInsert_length]
        by_cases hx : r.Id ∈ m.map Prod.fst <;> simp [hx]
      simp only [List.length_cons]
      omega

/-- Every value of the built mapping is a synthetic id of an emitted
patient (or came from the starting accumulator). -/
theorem transformLoop_values (rows : List PatientRow) :
    ∀ (i : Nat) (ps : List Patient) (m : List (String × String)) (v : String),
      v ∈ (transformLoop i rows ps m).2.map Prod.snd →
      v ∈ m.map Prod.snd ∨ v ∈ (transformLoop i rows ps m).1.map Patient.synthetic_id := by
  induction rows with
  | nil => intro i ps m v h; exact Or.inl (by simpa [transformLoop] using h)
  | cons r rs ih =>
    intro i ps m v h
    have hub := ih (i + 1) (ps ++ [map_patient r (i + 1)])
      (dictInsert m r.Id (map_patient r (i + 1)).synthetic_id) v h
    rcases hub with hm | hids
    · rcases dictInsert_values m _ _ _ hm with hold | hnew
      · exact Or.inl hold
      · right
        rw [transformLoop_ids, hnew]
        simp only [List.mem_append, List.mem_map]
        right
        refine ⟨i + 1, ?_, rfl⟩
        simp
    · right
      exact hids

/- ===================== lemmas : first-occurrence dedup ===================== -/

/-- The dedup scan only depends on the seen keys as a set. -/
theorem dedupFirstByAux_congr {ρ : Type} (key : ρ → String) (rows : List ρ) :
    ∀ seen1 seen2 : List String, (∀ s, s ∈ seen1 ↔ s ∈ seen2) →
      dedupFirstByAux key seen1 rows = dedupFirstByAux key seen2 rows := by
  induction rows with
  | nil => intro _ _ _; rfl
  | cons r rs ih =>
    intro s1 s2 hiff
    by_cases h : key r ∈ s1
    · have h2 : key r ∈ s2 := (hiff _).mp h
      simp [dedupFirstByAux, h, h2, ih s1 s2 hiff]
    · have h2 : key r ∉ s2 := fun hc => h ((hiff _).mpr hc)
      have hcons : ∀ s, s ∈ key r :: s1 ↔ s ∈ key r :: s2 := by
        intro s
        simp [hiff s]
      simp [dedupFirstByAux, h, h2, ih _ _ hcons]

/-- Surviving rows have keys outside the seen set. -/
theorem dedupFirstByAux_not_seen {ρ : Type} (key : ρ → String) (rows : List ρ) :
    ∀ (seen : List String) (r' : ρ), r' ∈ dedupFirstByAux key seen rows → key r' ∉ seen := by
  induction rows with
  | nil => intro seen r' h; simp [dedupFirstByAux] at h
  | cons r rs ih =>
    intro seen r' h
    by_cases hk : key r ∈ seen
    · simp only [dedupFirstByAux, hk, if_true] at h
      exact ih seen r' h
    · simp only [dedupFirstByAux, hk, if_false, List.mem_cons] at h
      rcases h with rfl | h
      · exact hk
      · have := ih (key r :: seen) r' h
        intro hc
        exact this (List.mem_cons_of_mem _ hc)

/-- Keys are pairwise distinct after dedup. -/
theorem dedupFirstByAux_keys_nodup {ρ : Type} (key : ρ → String) (rows : List ρ) :
    ∀ seen : List String, ((dedupFirstByAux key seen rows).map key).Nodup := by
  induction rows with
  | nil => intro seen; simp [dedupFirstByAux]
  | cons r rs ih =>
    intro seen
    by_cases hk : key r ∈ seen
    · simpa [dedupFirstByAux, hk] using ih seen
    · simp only [dedupFirstByAux, hk, if_false, List.map_cons, List.nodup_cons]
      refine ⟨?_, ih (key r :: seen)⟩
      intro hc
      obtain ⟨r', hr', he⟩ := List.mem_map.mp hc
      have := dedupFirstByAux_not_seen key rs (key r :: seen) r' hr'
      exact this (he ▸ List.mem_cons_self _ _)

/-- A key survives dedup exactly when it occurs and was not already
seen. -/
theorem dedupFirstByAux_mem_keys {ρ : Type} (key : ρ → String) (rows : List ρ) :
    ∀ (seen : List String) (c : String),
      c ∈ (dedupFirstByAux key seen rows).map key ↔ (c ∉ seen ∧ c ∈ rows.map key) := by
  induction rows with
  | nil => intro seen c; simp [dedupFirstByAux]
  | cons r rs ih =>
    intro seen c
    by_cases hk : key r ∈ seen
    · rw [show dedupFirstByAux key seen (r :: rs) = dedupFirstByAux key seen rs by
        simp [dedupFirstByAux, hk]]
      rw [ih seen c]
      constructor
      · rintro ⟨h1, h2⟩
        exact ⟨h1, by simp [h2]⟩
      · rintro ⟨h1, h2⟩
        simp only [List.map_cons, List.mem_cons] at h2
        rcases h2 with rfl | h2
        · exact absurd hk h1
        · exact ⟨h1, h2⟩
    · rw [show dedupFirstByAux key seen (r :: rs)
          = r :: dedupFirstByAux key (key r :: seen) rs by simp [dedupFirstByAux, hk]]
      simp only [List.map_cons, List.mem_cons]
      rw [ih (key r :: seen) c]
      by_cases hc : c = key r
      · subst hc
        simp [hk]
      · simp only [hc, false_or, List.mem_cons]

/-- Each surviving row is the first occurrence of its key in the scanned
list. -/
theorem dedupFirstByAux_find {ρ : Type} (key : ρ → String) (rows : List ρ) :
    ∀ (seen : List String) (r' : ρ), r' ∈ dedupFirstByAux key seen rows →
      rows.find? (fun x => key x == key r') = some r' := by
  induction rows with
  | nil => intro seen r' h; simp [dedupFirstByAux] at h
  | cons r rs ih =>
    intro seen r' h
    by_cases hk : key r ∈ seen
    · simp only [dedupFirstByAux, hk, if_true] at h
      have hne : key r ≠ key r' := by
        intro he
        exact dedupFirstByAux_not_seen key rs seen r' h (he ▸ hk)
      simpa [List.find?_cons, hne] using ih seen r' h
    · simp only [dedupFirstByAux, hk, if_false, List.mem_cons] at h
      rcases h with rfl | h
      · simp [List.find?_cons]
      · have hnotin := dedupFirstByAux_not_seen key rs (key r :: seen) r' h
        have hne : key r ≠ key r' := by
          intro he
          exact hnotin (he ▸ List.mem_cons_self _ _)
        simpa [List.find?_cons, hne] using ih (key r :: seen) r' h

/- ===================== lemmas : lab catalog loop ===================== -/

/-- Within-chunk duplicate dropping is redundant given the running dict:
folding the conditional insert over the deduplicated rows equals folding
it over all rows, as long as every seen key is a dict key. -/
theorem labFoldIns_dedup (rows : List ObsRow) :
    ∀ (seen : List String) (m : List (String × LabCode)),
      (∀ s ∈ seen, s ∈ m.map Prod.fst) →
      (dedupFirstByAux (fun r => r.CODE) seen rows).foldl labDictIns m = labFoldIns m rows := by
  induction rows with
  | nil => intro seen m _; rfl
  | cons r rs ih =>
    intro seen m hsub
    by_cases hk : r.CODE ∈ seen
    · have hm : r.CODE ∈ m.map Prod.fst := hsub _ hk
      show (dedupFirstByAux _ seen (r :: rs)).foldl labDictIns m = (r :: rs).foldl labDictIns m
      rw [show dedupFirstByAux (fun r => r.CODE) seen (r :: rs)
          = dedupFirstByAux (fun r => r.CODE) seen rs by simp [dedupFirstByAux, hk]]
      rw [ih seen m hsub]
      show labFoldIns m rs = List.foldl labDictIns (labDictIns m r) rs
      rw [show labDictIns m r = m by simp [labDictIns, hm]]
      rfl
    · by_cases hm : r.CODE ∈ m.map Prod.fst
      · show (dedupFirstByAux _ seen (r :: rs)).foldl labDictIns m = (r :: rs).foldl labDictIns m
        rw [show dedupFirstByAux (fun r => r.CODE) seen (r :: rs)
            = r :: dedupFirstByAux (fun r => r.CODE) (r.CODE :: seen) rs by
          simp [dedupFirstByAux, hk]]
        show List.foldl labDictIns (labDictIns m r) (dedupFirstByAux _ (r.CODE :: seen) rs)
            = List.foldl labDictIns (labDictIns m r) rs
        rw [show labDictIns m r = m by simp [labDictIns, hm]]
        apply ih
        intro s hs
        rcases List.mem_cons.mp hs with rfl | hs
        · exact hm
        · exact hsub _ hs
      · show (dedupFirstByAux _ seen (r :: rs)).foldl labDictIns m = (r :: rs).foldl labDictIns m
        rw [show dedupFirstByAux (fun r => r.CODE) seen (r :: rs)
            = r :: dedupFirstByAux (fun r => r.CODE) (r.CODE :: seen) rs by
          simp [dedupFirstByAux, hk]]
        show List.foldl labDictIns (labDictIns m r) (dedupFirstByAux _ (r.CODE :: seen) rs)
            = List.foldl labDictIns (labDictIns m r) rs
        have hins : labDictIns m r = m ++ [(r.CODE, map_lab_code r)] := by
          simp [labDictIns, hm]
        rw [hins]
        apply ih
        intro s hs
        rcases List.mem_cons.mp hs with rfl | hs
        · simp
        · simp only [List.map_append, List.mem_append]
          exact Or.inl (hsub _ hs)

/-- One chunk step equals folding the conditional insert over the
filtered chunk rows. -/
theorem labCodesChunk_eq (ids : List String) (m : List (String × LabCode))
    (chunk : List ObsRow) :
    labCodesChunk ids m chunk = labFoldIns m (chunk.filter (fun r => r.PATIENT ∈ ids)) := by
  unfold labCodesChunk dedupFirstBy
  exact labFoldIns_dedup _ [] m (by simp)

/-- The chunk loop folds the conditional insert over the concatenation of
the filtered chunks. -/
theorem labCodesLoop_eq (ids : List String) (chunks : List (List ObsRow)) :
    ∀ m : List (String × LabCode),
      labCodesLoop ids m chunks
        = labFoldIns m ((chunks.map (fun c => c.filter (fun r => r.PATIENT ∈ ids))).flatten) := by
  induction chunks with
  | nil => intro m; rfl
  | cons c cs ih =>
    intro m
    show labCodesLoop ids (labCodesChunk ids m c) cs = _
    rw [ih, labCodesChunk_eq]
    unfold labFoldIns
    rw [show ((c :: cs).map (fun c => c.filter (fun r => r.PATIENT ∈ ids))).flatten
        = c.filter (fun r => r.PATIENT ∈ ids)
          ++ (cs.map (fun c => c.filter (fun r => r.PATIENT ∈ ids))).flatten from by simp]
    rw [List.foldl_append]

/-- Filtering commutes with flattening the chunks. -/
theorem filter_flatten {ρ : Type} (p : ρ → Bool) (chunks : List (List ρ)) :
    (chunks.map (List.filter p)).flatten = (chunks.flatten).filter p := by
  induction chunks with
  | nil => rfl
  | cons c cs ih => simp only [List.map_cons, List.flatten_cons, List.filter_append, ih]

/-- The dict values after the fold are the old values followed by the
mapped first occurrences of the new codes. -/
theorem labFoldIns_snd (rows : List ObsRow) :
    ∀ m : List (String × LabCode),
      (labFoldIns m rows).map Prod.snd
        = m.map Prod.snd
          ++ (dedupFirstByAux (fun r => r.CODE) (m.map Prod.fst) rows).map map_lab_code := by
  induction rows with
  | nil => intro m; simp [labFoldIns, dedupFirstByAux]
  | cons r rs ih =>
    intro m
    by_cases hm : r.CODE ∈ m.map Prod.fst
    · show (List.foldl labDictIns (labDictIns m r) rs).map Prod.snd = _
      rw [show labDictIns m r = m by simp [labDictIns, hm]]
      rw [show (dedupFirstByAux (fun r => r.CODE) (m.map Prod.fst) (r :: rs))
          = dedupFirstByAux (fun r => r.CODE) (m.map Prod.fst) rs by
        simp [dedupFirstByAux, hm]]
      exact ih m
    · show (List.foldl labDictIns (labDictIns m r) rs).map Prod.snd = _
      have hins : labDictIns m r = m ++ [(r.CODE, map_lab_code r)] := by
        simp [labDictIns, hm]
      rw [hins]
      have := ih (m ++ [(r.CODE, map_lab_code r)])
      unfold labFoldIns at this
      rw [this]
      rw [show (dedupFirstByAux (fun r => r.CODE) (m.map Prod.fst) (r :: rs))
          = r :: dedupFirstByAux (fun r => r.CODE) (r.CODE :: m.map Prod.fst) rs by
        simp [dedupFirstByAux, hm]]
      rw [dedupFirstByAux_congr (fun r => r.CODE) rs
        ((m ++ [(r.CODE, map_lab_code r)]).map Prod.fst) (r.CODE :: m.map Prod.fst)
        (by intro s; simp; tauto)]
      simp

/-- Flattening the explicit chunking recovers the row stream. -/
theorem chunkList_flatten {ρ : Type} (size : Nat) (hs : 0 < size) (l : List ρ) :
    (chunkList size l).flatten = l := by
  generalize hn : l.length = n
  induction n using Nat.strong_induction_on generalizing l with
  | _ n ih =>
    cases l with
    | nil => simp [chunkList]
    | cons x xs =>
      rw [show chunkList size (x :: xs)
          = ((x :: xs).take size) :: chunkList size (xs.drop (size - 1)) from by
        simp [chunkList]]
      have hdrop : xs.drop (size - 1) = (x :: xs).drop size := by
        cases size with
        | zero => omega
        | succ k => simp
      simp only [List.flatten_cons]
      rw [hdrop]
      rw [ih ((x :: xs).drop size).length (by subst hn; simp; omega) _ rfl]
      exact List.take_append_drop size (x :: xs)

/- ===================== lemmas : lab relationship loop ===================== -/

/-- The row loop never grows the output beyond the record cap. -/
theorem labsChunkLoop_le (chunk : List ObsRow) :
    ∀ (m : List (String × String)) (mx : Nat) (acc : List PatientLab),
      acc.length ≤ mx → (labsChunkLoop m mx acc chunk).length ≤ mx := by
  induction chunk with
  | nil => intro m mx acc h; simpa [labsChunkLoop] using h
  | cons row rest ih =>
    intro m mx acc h
    by_cases hb : mx ≤ acc.length
    · simpa [labsChunkLoop, hb] using h
    · cases hf : dictLookup m row.PATIENT with
      | none =>
        simp only [labsChunkLoop, hb, if_false, hf]
        exact ih m mx acc h
      | some sid =>
        simp only [labsChunkLoop, hb, if_false, hf]
        apply ih
        simp only [List.length_append, List.length_cons, List.length_nil]
        omega

/-- The chunk loop never grows the output beyond the record cap. -/
theorem labsLoop_le (chunks : List (List ObsRow)) :
    ∀ (m : List (String × String)) (mx : Nat) (acc : List PatientLab),
      acc.length ≤ mx → (labsLoop m mx acc chunks).length ≤ mx := by
  induction chunks with
  | nil => intro m mx acc h; simpa [labsLoop] using h
  | cons c cs ih =>
    intro m mx acc h
    by_cases hb : mx ≤ acc.length
    · simpa [labsLoop, hb] using h
    · simp only [labsLoop, hb, if_false]
      exact ih m mx (labsChunkLoop m mx acc c) (labsChunkLoop_le c m mx acc h)

/-- Once the cap is reached, later chunks are never consumed: the loop on
an extended chunk list returns the same output. -/
theorem labsLoop_halt (c1 : List (List ObsRow)) :
    ∀ (c2 : List (List ObsRow)) (m : List (String × String)) (mx : Nat)
      (acc : List PatientLab),
      mx ≤ (labsLoop m mx acc c1).length →
      labsLoop m mx acc (c1 ++ c2) = labsLoop m mx acc c1 := by
  induction c1 with
  | nil =>
    intro c2 m mx acc h
    simp only [labsLoop] at h
    cases c2 with
    | nil => rfl
    | cons c cs => simp [labsLoop, h]
  | cons c cs ih =>
    intro c2 m mx acc h
    by_cases hb : mx ≤ acc.length
    · simp [labsLoop, hb]
    · simp only [labsLoop, hb, if_false] at h ⊢
      exact ih c2 m mx (labsChunkLoop m mx acc c) h

/-- Every record emitted by the row loop either was in the accumulator or
carries a synthetic id stored in the mapping. -/
theorem labsChunkLoop_mem (chunk : List ObsRow) :
    ∀ (m : List (String × String)) (mx : Nat) (acc : List PatientLab)
      (rel : PatientLab), rel ∈ labsChunkLoop m mx acc chunk →
      rel ∈ acc ∨ rel.patient_synthetic_id ∈ m.map Prod.snd := by
  induction chunk with
  | nil => intro m mx acc rel h; exact Or.inl (by simpa [labsChunkLoop] using h)
  | cons row rest ih =>
    intro m mx acc rel h
    by_cases hb : mx ≤ acc.length
    · exact Or.inl (by simpa [labsChunkLoop, hb] using h)
    · cases hf : dictLookup m row.PATIENT with
      | none =>
        simp only [labsChunkLoop, hb, if_false, hf] at h
        exact ih m mx acc rel h
      | some sid =>
        simp only [labsChunkLoop, hb, if_false, hf] at h
        rcases ih m mx _ rel h with hacc | hm
        · rcases List.mem_append.mp hacc with h1 | h1
          · exact Or.inl h1
          · right
            have : rel = map_patient_lab sid row := by simpa using h1
            subst this
            exact dictLookup_mem_values m row.PATIENT sid hf
        · exact Or.inr hm

/-- Every record emitted by the chunk loop either was in the accumulator
or carries a synthetic id stored in the mapping. -/
theorem labsLoop_mem (chunks : List (List ObsRow)) :
    ∀ (m : List (String × String)) (mx : Nat) (acc : List PatientLab)
      (rel : PatientLab), rel ∈ labsLoop m mx acc chunks →
      rel ∈ acc ∨ rel.patient_synthetic_id ∈ m.map Prod.snd := by
  induction chunks with
  | nil => intro m mx acc rel h; exact Or.inl (by simpa [labsLoop] using h)
  | cons c cs ih =>
    intro m mx acc rel h
    by_cases hb : mx ≤ acc.length
    · exact Or.inl (by simpa [labsLoop, hb] using h)
    · simp only [labsLoop, hb, if_false] at h
      rcases ih m mx _ rel h with hacc | hm
      · exact labsChunkLoop_mem c m mx acc rel hacc
      · exact Or.inr hm

/- ===================== lemmas : categorization ===================== -/

/-- The table scan returns a table label or the default. -/
theorem firstLabel_mem (table : List (List String × String)) (dflt : String)
    (desc : List Char) : firstLabel table dflt desc ∈ table.map Prod.snd ++ [dflt] := by
  induction table with
  | nil => simp [firstLabel]
  | cons p rest ih =>
    obtain ⟨kws, label⟩ := p
    by_cases h : kws.any (fun kw => containsSub kw.data desc)
    · simp [firstLabel, h]
    · rw [show firstLabel ((kws, label) :: rest) dflt desc = firstLabel rest dflt desc by
        simp [firstLabel, h]]
      rw [List.map_cons, List.cons_append]
      exact List.mem_cons_of_mem _ ih

/-- When no keyword of any pair matches, the scan returns the default. -/
theorem firstLabel_no_match (table : List (List String × String)) (dflt : String)
    (desc : List Char)
    (h : ∀ p ∈ table, ∀ kw ∈ p.1, ¬ containsSub kw.data desc = true) :
    firstLabel table dflt desc = dflt := by
  induction table with
  | nil => rfl
  | cons p rest ih =>
    have hany : p.1.any (fun kw => containsSub kw.data desc) = false := by
      rw [List.any_eq_false]
      intro kw hkw
      exact h p (List.mem_cons_self _ _) kw hkw
    rw [show firstLabel (p :: rest) dflt desc = firstLabel rest dflt desc by
      cases p with
      | mk kws label => simp only [firstLabel, hany, Bool.false_eq_true, if_false]]
    exact ih (fun q hq kw hkw => h q (List.mem_cons_of_mem _ hq) kw hkw)

/- ===================== claim theorems ===================== -/

/-- C6: every classification function (condition category, drug class,
lab category) is total: for every input string, including the empty
string, it returns one label from its fixed closed label set (the table
labels plus the default "Other"), and it returns "Other" exactly as the
fall-through when no keyword of any table pair is a substring of the
case-folded input.  Totality (never raising) is intrinsic: the embeddings
are total Lean functions mirroring the source loops. -/
theorem categorize_total_closed_set (s : String) :
    categorize_condition s ∈ condition_categories.map Prod.snd ++ ["Other"]
    ∧ categorize_drug s ∈ drug_classes.map Prod.snd ++ ["Other"]
    ∧ categorize_lab s ∈ lab_categories.map Prod.snd ++ ["Other"]
    ∧ ((∀ p ∈ condition_categories, ∀ kw ∈ p.1,
          ¬ containsSub kw.data (strLower s).data = true) →
        categorize_condition s = "Other")
    ∧ ((∀ p ∈ drug_classes, ∀ kw ∈ p.1,
          ¬ containsSub kw.data (strLower s).data = true) →
        categorize_drug s = "Other")
    ∧ ((∀ p ∈ lab_categories, ∀ kw ∈ p.1,
          ¬ containsSub kw.data (strLower s).data = true) →
        categorize_lab s = "Other") :=
  ⟨firstLabel_mem _ _ _, firstLabel_mem _ _ _, firstLabel_mem _ _ _,
   fun h => firstLabel_no_match _ _ _ h, fun h => firstLabel_no_match _ _ _ h,
   fun h => firstLabel_no_match _ _ _ h⟩

/-- Witness for C6 at the empty string: it classifies, and to the default
label. -/
theorem categorize_total_closed_set_witness :
    categorize_condition "" ∈ condition_categories.map Prod.snd ++ ["Other"]
    ∧ categorize_condition "" = "Other" :=
  ⟨(categorize_total_closed_set "").1,
   (categorize_total_closed_set "").2.2.2.1 (by decide)⟩

/-- C7: generic-name extraction returns the leading run of one or two
whitespace-separated alphabetic tokens before the first non-alphabetic
token, lower-cased; with no such leading run it falls back to the first
whitespace-separated token lower-cased, and to "unknown" on empty input;
in particular "Lisinopril 10 MG Oral Tablet" yields generic name
"lisinopril" and drug class "ACE Inhibitor". -/
theorem extract_generic_name_correct :
    (∀ s : String, extract_generic_name s = generic_name_spec s)
    ∧ extract_generic_name "Lisinopril 10 MG Oral Tablet" = "lisinopril"
    ∧ categorize_drug "Lisinopril 10 MG Oral Tablet" = "ACE Inhibitor"
    ∧ extract_generic_name "" = "unknown" := by
  refine ⟨?_, by decide, by decide, by decide⟩
  intro s
  unfold extract_generic_name generic_name_spec regexLeadingTokens
  dsimp only
  split_ifs <;>
    first
      | rfl
      | (exfalso
         simp_all only [Bool.and_eq_true, Bool.not_eq_true', Bool.or_eq_true, not_or,
           Bool.not_eq_true, Bool.or_self, Bool.false_or, Bool.or_false, Bool.false_eq_true,
           Bool.not_false, Bool.and_self, not_true, Bool.true_eq_false])

/-- C8: for a present lab value, `map_patient_lab` attempts a numeric
parse; on success the record holds both the numeric value and the text
truncated to 100 characters, on failure only the truncated text with the
numeric field absent (the fallback is total, never an error); in
particular value "98.6" gives numeric 98.6 with text "98.6" and value
"Negative" gives no numeric value with text "Negative". -/
theorem map_patient_lab_value_fallback :
    (∀ (sid : String) (row : ObsRow) (v : String), row.VALUE = some v →
      (∀ q : ℚ, pyFloat v = some q →
        (map_patient_lab sid row).value_numeric = some q
        ∧ (map_patient_lab sid row).value_text = some (truncAt 100 v))
      ∧ (pyFloat v = none →
        (map_patient_lab sid row).value_numeric = none
        ∧ (map_patient_lab sid row).value_text = some (truncAt 100 v)))
    ∧ (map_patient_lab "SYN-00001" sampleObsA).value_numeric = some (493/5 : ℚ)
    ∧ (map_patient_lab "SYN-00001" sampleObsA).value_text = some "98.6"
    ∧ (map_patient_lab "SYN-00001" sampleObsB).value_numeric = none
    ∧ (map_patient_lab "SYN-00001" sampleObsB).value_text = some "Negative" := by
  refine ⟨?_, ?_, by decide, by decide, by decide⟩
  · intro sid row v hv
    constructor
    · intro q hq
      constructor <;> simp [map_patient_lab, hv, hq]
    · intro hq
      constructor <;> simp [map_patient_lab, hv, hq]
  · have h : (map_patient_lab "SYN-00001" sampleObsA).value_numeric
        = some ((1 : ℚ) * (((98 : ℕ) : ℚ) + ((6 : ℕ) : ℚ) / 10 ^ 1)) := rfl
    rw [h]
    norm_num

/-- Witness for C8 at a concrete present value. -/
theorem map_patient_lab_value_fallback_witness :
    (map_patient_lab "SYN-00001" sampleObsB).value_numeric = none
    ∧ (map_patient_lab "SYN-00001" sampleObsB).value_text = some (truncAt 100 "Negative") :=
  (map_patient_lab_value_fallback.1 "SYN-00001" sampleObsB "Negative" (by decide)).2 (by decide)

/-- C1 (the stability part is refuted): the prevalence estimate always
lies on the 0.01-step grid, `(1 + h % 30)/100 ∈ [0.01, 0.30]` for the
process hash value `h`, but it is a function of that per-process value and
not of the code string alone: CPython's built-in string `hash` is salted
per process, and two processes whose hash functions differ on a code
string produce different prevalences for the same code. -/
theorem estimate_prevalence_hash_dependent :
    (∀ (pyHash : String → Int) (code : String),
      ∃ k : Nat, 1 ≤ k ∧ k ≤ 30 ∧ estimate_prevalence pyHash code = (k : ℚ) / 100)
    ∧ (∃ f g : String → Int,
        estimate_prevalence f "59621000" ≠ estimate_prevalence g "59621000") := by
  constructor
  · intro pyHash code
    have h1 : 0 ≤ pyHash code % 30 := Int.emod_nonneg _ (by norm_num)
    have h2 : pyHash code % 30 < 30 := Int.emod_lt_of_pos _ (by norm_num)
    refine ⟨(pyHash code % 30).toNat + 1, by omega, by omega, ?_⟩
    unfold estimate_prevalence
    have h4 : ((pyHash code % 30).toNat : ℤ) = pyHash code % 30 := Int.toNat_of_nonneg h1
    have h3 : (((pyHash code % 30).toNat + 1 : ℕ) : ℚ)
        = 1 + ((pyHash code % 30 : ℤ) : ℚ) := by
      rw [Nat.cast_add, Nat.cast_one, ← @Int.cast_natCast ℚ _ ((pyHash code % 30).toNat), h4]
      ring
    rw [h3]
  · refine ⟨fun _ => 0, fun _ => 1, ?_⟩
    unfold estimate_prevalence
    norm_num

/-- Counterexample to C2 as stated: two subject rows sharing one source
identifier, cohort limit 2.  Both rows are processed and two Subjects are
emitted, but the id lookup table has a single entry, not
`min(n, N) = 2`. -/
theorem transform_patients_lookup_count_counterexample :
    (transform_patients samplePatientsDup 2).1.length = 2
    ∧ (transform_patients samplePatientsDup 2).2.length = 1
    ∧ (transform_patients samplePatientsDup 2).2.length
        ≠ min 2 samplePatientsDup.length := by
  refine ⟨by decide, by decide, by decide⟩

/-- C2 (amended): `transform_patients` processes exactly the first
`min(n, N)` subject rows in stream order, emitting one Subject per row
whose synthetic id is the running 1-based counter formatted as
`SYN-` plus the zero-padded counter, so the ids are `SYN-00001`,
`SYN-00002`, ... in order and pairwise distinct; and, provided the
processed rows have pairwise distinct source identifiers, the id lookup
table has exactly `min(n, N)` entries. -/
theorem transform_patients_first_rows (df : List PatientRow) (limit : Nat) :
    (transform_patients df limit).1
        = (List.enumFrom 0 (df.take limit)).map (fun p => map_patient p.2 (p.1 + 1))
    ∧ (transform_patients df limit).1.length = min limit df.length
    ∧ (transform_patients df limit).1.map Patient.synthetic_id
        = (List.range' 1 (min limit df.length)).map (fun t => "SYN-" ++ format05 t)
    ∧ ((transform_patients df limit).1.map Patient.synthetic_id).Nodup
    ∧ (((df.take limit).map PatientRow.Id).Nodup →
        (transform_patients df limit).2.length = min limit df.length) := by
  have hids : (transform_patients df limit).1.map Patient.synthetic_id
      = (List.range' 1 (min limit df.length)).map (fun t => "SYN-" ++ format05 t) := by
    unfold transform_patients
    rw [transformLoop_ids]
    simp [List.length_take]
  refine ⟨?_, ?_, hids, ?_, ?_⟩
  · unfold transform_patients
    rw [transformLoop_fst]
    simp
  · have := congrArg List.length hids
    simpa using this
  · rw [hids]
    exact (List.nodup_range' 1 (min limit df.length)).map
      (fun a b hab => synthId_injective a b hab)
  · intro hnd
    unfold transform_patients
    rw [transformLoop_len_nodup (df.take limit) 0 [] [] hnd (by simp)]
    simp [List.length_take]

/-- Witness for C2 over ten distinct-id subject rows with cohort limit 3:
exactly 3 Subjects and 3 lookup entries. -/
theorem transform_patients_first_rows_witness :
    (transform_patients samplePatients10 3).1.length = min 3 samplePatients10.length
    ∧ (transform_patients samplePatients10 3).2.length = min 3 samplePatients10.length :=
  ⟨(transform_patients_first_rows samplePatients10 3).2.1,
   (transform_patients_first_rows samplePatients10 3).2.2.2.2 (by decide)⟩

/-- C10: when two of the first `min(n, N)` subject rows share a source
identifier, one Subject per row is still emitted with pairwise distinct
synthetic ids, while the id lookup table collapses the duplicates: it has
strictly fewer entries than the emitted Subjects, and each key holds the
synthetic id of the last row in stream order bearing it (the lookup table
is characterised through `lastIdxOf`, the position of the last matching
row among the processed rows). -/
theorem transform_patients_duplicate_collapse (df : List PatientRow) (limit : Nat)
    (i j : Nat) (hij : i < j) (hj : j < (df.take limit).length)
    (hkey : ((df.take limit).get ⟨i, by omega⟩).Id = ((df.take limit).get ⟨j, hj⟩).Id) :
    (transform_patients df limit).1.length = (df.take limit).length
    ∧ ((transform_patients df limit).1.map Patient.synthetic_id).Nodup
    ∧ (transform_patients df limit).2.length < (transform_patients df limit).1.length
    ∧ (∀ key : String,
        dictLookup (transform_patients df limit).2 key
          = (lastIdxOf key (df.take limit)).map (fun t => "SYN-" ++ format05 (t + 1))) := by
  have hi : i < (df.take limit).length := by omega
  have hlen : (transform_patients df limit).1.length = (df.take limit).length := by
    have h := (transform_patients_first_rows df limit).2.1
    rw [h, List.length_take]
  refine ⟨hlen, (transform_patients_first_rows df limit).2.2.2.1, ?_, ?_⟩
  · rw [hlen]
    have hdup : ¬ (((df.take limit).map PatientRow.Id).Nodup) := by
      intro hnd
      have hmi : i < ((df.take limit).map PatientRow.Id).length := by
        simpa using hi
      have hmj : j < ((df.take limit).map PatientRow.Id).length := by
        simpa using hj
      have hm1 : ((df.take limit).map PatientRow.Id).get ⟨i, hmi⟩
          = ((df.take limit).map PatientRow.Id).get ⟨j, hmj⟩ := by
        rw [List.get_map, List.get_map]
        exact hkey
      have hfin := (List.Nodup.get_inj_iff hnd).mp hm1
      have : i = j := by
        simpa using hfin
      omega
    unfold transform_patients
    have := transformLoop_len_lt (df.take limit) 0 [] [] hdup
    simpa using this
  · intro key
    unfold transform_patients
    rw [transformLoop_lookup]
    cases h : lastIdxOf key (df.take limit) with
    | none => simp [dictLookup]
    | some t => simp

/-- Witness for C10 at the concrete duplicated pair, cohort limit 2. -/
theorem transform_patients_duplicate_collapse_witness :
    (transform_patients samplePatientsDup 2).1.length = (samplePatientsDup.take 2).length
    ∧ (transform_patients samplePatientsDup 2).2.length
        < (transform_patients samplePatientsDup 2).1.length :=
  ⟨(transform_patients_duplicate_collapse samplePatientsDup 2 0 1 (by decide) (by decide)
      (by decide)).1,
   (transform_patients_duplicate_collapse samplePatientsDup 2 0 1 (by decide) (by decide)
      (by decide)).2.2.1⟩

/-- C3: the code-catalog extraction first filters to rows whose subject
is in the cohort id set and then deduplicates by code keeping the first
occurrence in stream order: the condition and medication extractions
compute exactly the first-occurrence dedup of the filtered stream; the
chunked lab extraction computes the same result for every chunking (the
first-seen guarantee holds across chunk boundaries), and coincides with
the first-occurrence dedup of the filtered flattened stream; the catalog
has exactly one entry per distinct filtered code, and every entry is
computed from the first filtered row bearing its code. -/
theorem catalog_dedup_first_occurrence (pyHash : String → Int)
    (condRows : List ConditionRow) (medRows : List MedicationRow)
    (obsRows : List ObsRow) (chunks : List (List ObsRow))
    (ids : List String) (chunk_size : Nat) :
    extract_condition_codes pyHash (DataFrame.table condRows) ids
        = .ok ((dedupFirstBy (fun r => r.CODE)
            (condRows.filter (fun r => r.PATIENT ∈ ids))).map (map_condition_code pyHash))
    ∧ extract_medication_codes (DataFrame.table medRows) ids
        = .ok ((dedupFirstBy (fun r => r.CODE)
            (medRows.filter (fun r => r.PATIENT ∈ ids))).map map_medication_code)
    ∧ (labCodesLoop ids [] chunks).map Prod.snd
        = (dedupFirstBy (fun r => r.CODE)
            (chunks.flatten.filter (fun r => r.PATIENT ∈ ids))).map map_lab_code
    ∧ (0 < chunk_size →
        extract_lab_codes (some obsRows) ids chunk_size
          = (dedupFirstBy (fun r => r.CODE)
              (obsRows.filter (fun r => r.PATIENT ∈ ids))).map map_lab_code)
    ∧ (∀ c : String,
        c ∈ (dedupFirstBy (fun r : ObsRow => r.CODE)
              (chunks.flatten.filter (fun r => r.PATIENT ∈ ids))).map (fun r => r.CODE)
          ↔ c ∈ (chunks.flatten.filter (fun r => r.PATIENT ∈ ids)).map (fun r => r.CODE))
    ∧ ((dedupFirstBy (fun r : ObsRow => r.CODE)
          (chunks.flatten.filter (fun r => r.PATIENT ∈ ids))).map (fun r => r.CODE)).Nodup
    ∧ (∀ entry ∈ (dedupFirstBy (fun r : ConditionRow => r.CODE)
          (condRows.filter (fun r => r.PATIENT ∈ ids))).map (map_condition_code pyHash),
        ∃ r, (condRows.filter (fun r => r.PATIENT ∈ ids)).find?
              (fun x => x.CODE == entry.code) = some r
          ∧ entry = map_condition_code pyHash r)
    ∧ (∀ entry ∈ (dedupFirstBy (fun r : ObsRow => r.CODE)
          (chunks.flatten.filter (fun r => r.PATIENT ∈ ids))).map map_lab_code,
        ∃ r, (chunks.flatten.filter (fun r => r.PATIENT ∈ ids)).find?
              (fun x => x.CODE == entry.code) = some r
          ∧ entry = map_lab_code r) := by
  have hloop : (labCodesLoop ids [] chunks).map Prod.snd
      = (dedupFirstBy (fun r => r.CODE)
          (chunks.flatten.filter (fun r => r.PATIENT ∈ ids))).map map_lab_code := by
    rw [labCodesLoop_eq, labFoldIns_snd, filter_flatten]
    simp [dedupFirstBy]
  refine ⟨rfl, rfl, hloop, ?_, ?_, ?_, ?_, ?_⟩
  · intro hcs
    show (labCodesLoop ids [] (chunkList chunk_size obsRows)).map Prod.snd = _
    rw [labCodesLoop_eq, labFoldIns_snd, filter_flatten, chunkList_flatten chunk_size hcs]
    simp [dedupFirstBy]
  · intro c
    unfold dedupFirstBy
    rw [dedupFirstByAux_mem_keys]
    simp
  · exact dedupFirstByAux_keys_nodup _ _ _
  · intro entry hmem
    obtain ⟨r', hr', he⟩ := List.mem_map.mp hmem
    refine ⟨r', ?_, he.symm⟩
    have hcode : entry.code = r'.CODE := by rw [← he]; rfl
    rw [hcode]
    exact dedupFirstByAux_find _ _ [] r' hr'
  · intro entry hmem
    obtain ⟨r', hr', he⟩ := List.mem_map.mp hmem
    refine ⟨r', ?_, he.symm⟩
    have hcode : entry.code = r'.CODE := by
      rw [← he]
      unfold map_lab_code
      dsimp only
      split <;> rfl
    rw [hcode]
    exact dedupFirstByAux_find _ _ [] r' hr'

/-- Witness for C3: two rows with the same code split across two chunks
of size one; the catalog keeps the first row's entry only. -/
theorem catalog_dedup_first_occurrence_witness :
    0 < 1 ∧ extract_lab_codes (some [sampleObsA, sampleObsB]) ["u1"] 1
      = (dedupFirstBy (fun r => r.CODE)
          (([sampleObsA, sampleObsB]).filter (fun r => r.PATIENT ∈ ["u1"]))).map map_lab_code :=
  ⟨by decide,
   (catalog_dedup_first_occurrence (fun _ => 0) [] [] [sampleObsA, sampleObsB] [] ["u1"]
      1).2.2.2.1 (by decide)⟩

/-- C4: every relationship record emitted by the three relationship
builders against the id mapping of the same `transform_patients` run
carries a subject synthetic id that is the id of an emitted Subject of
that run (full referential integrity); moreover each emitted condition or
medication record arises from a source row whose subject lookup
succeeded, so rows outside the lookup table never appear in the
output. -/
theorem relationship_referential_integrity (df : List PatientRow) (limit : Nat)
    (condDf : DataFrame ConditionRow) (medDf : DataFrame MedicationRow)
    (obs : Option (List ObsRow)) (max_records chunk_size : Nat) :
    (∀ rel ∈ build_patient_conditions condDf (transform_patients df limit).2,
        rel.patient_synthetic_id
          ∈ (transform_patients df limit).1.map Patient.synthetic_id)
    ∧ (∀ rel ∈ build_patient_medications medDf (transform_patients df limit).2,
        rel.patient_synthetic_id
          ∈ (transform_patients df limit).1.map Patient.synthetic_id)
    ∧ (∀ rel ∈ build_patient_labs obs (transform_patients df limit).2 max_records chunk_size,
        rel.patient_synthetic_id
          ∈ (transform_patients df limit).1.map Patient.synthetic_id)
    ∧ (∀ rel ∈ build_patient_conditions condDf (transform_patients df limit).2,
        ∃ row ∈ condDf.rowList,
          dictLookup (transform_patients df limit).2 row.PATIENT
              = some rel.patient_synthetic_id
          ∧ rel = map_patient_condition rel.patient_synthetic_id row)
    ∧ (∀ rel ∈ build_patient_medications medDf (transform_patients df limit).2,
        ∃ row ∈ medDf.rowList,
          dictLookup (transform_patients df limit).2 row.PATIENT
              = some rel.patient_synthetic_id
          ∧ rel = map_patient_medication rel.patient_synthetic_id row) := by
  have hval : ∀ v : String, v ∈ (transform_patients df limit).2.map Prod.snd →
      v ∈ (transform_patients df limit).1.map Patient.synthetic_id := by
    intro v hv
    unfold transform_patients at hv ⊢
    rcases transformLoop_values (df.take limit) 0 [] [] v hv with h | h
    · simp at h
    · exact h
  refine ⟨?_, ?_, ?_, ?_, ?_⟩
  · intro rel hrel
    obtain ⟨row, _, hf⟩ := List.mem_filterMap.mp hrel
    cases hl : dictLookup (transform_patients df limit).2 row.PATIENT with
    | none => rw [hl] at hf; simp at hf
    | some sid =>
      rw [hl] at hf
      simp only [Option.some.injEq] at hf
      have hsid : rel.patient_synthetic_id = sid := by rw [← hf]; rfl
      rw [hsid]
      exact hval sid (dictLookup_mem_values _ _ _ hl)
  · intro rel hrel
    obtain ⟨row, _, hf⟩ := List.mem_filterMap.mp hrel
    cases hl : dictLookup (transform_patients df limit).2 row.PATIENT with
    | none => rw [hl] at hf; simp at hf
    | some sid =>
      rw [hl] at hf
      simp only [Option.some.injEq] at hf
      have hsid : rel.patient_synthetic_id = sid := by rw [← hf]; rfl
      rw [hsid]
      exact hval sid (dictLookup_mem_values _ _ _ hl)
  · intro rel hrel
    unfold build_patient_labs at hrel
    cases obs with
    | none => simp at hrel
    | some rows =>
      rcases labsLoop_mem (chunkList chunk_size rows) (transform_patients df limit).2
          max_records [] rel hrel with h | h
      · simp at h
      · exact hval _ h
  · intro rel hrel
    obtain ⟨row, hrow, hf⟩ := List.mem_filterMap.mp hrel
    cases hl : dictLookup (transform_patients df limit).2 row.PATIENT with
    | none => rw [hl] at hf; simp at hf
    | some sid =>
      rw [hl] at hf
      simp only [Option.some.injEq] at hf
      have hsid : rel.patient_synthetic_id = sid := by rw [← hf]; rfl
      exact ⟨row, hrow, by rw [hsid]; exact hl, by rw [← hf]; rfl⟩
  · intro rel hrel
    obtain ⟨row, hrow, hf⟩ := List.mem_filterMap.mp hrel
    cases hl : dictLookup (transform_patients df limit).2 row.PATIENT with
    | none => rw [hl] at hf; simp at hf
    | some sid =>
      rw [hl] at hf
      simp only [Option.some.injEq] at hf
      have hsid : rel.patient_synthetic_id = sid := by rw [← hf]; rfl
      exact ⟨row, hrow, by rw [hsid]; exact hl, by rw [← hf]; rfl⟩

/-- Witness for C4: one in-cohort condition row produces a record whose
subject id is the id of the single emitted Subject. -/
theorem relationship_referential_integrity_witness :
    (map_patient_condition "SYN-00001" sampleCondRow).patient_synthetic_id
      ∈ (transform_patients samplePatientsDup 1).1.map Patient.synthetic_id :=
  (relationship_referential_integrity samplePatientsDup 1
      (DataFrame.table [sampleCondRow]) (DataFrame.table []) none 0 0).1
    (map_patient_condition "SYN-00001" sampleCondRow) (by decide)

/-- C5: for every observation stream and cap, `build_patient_labs`
returns at most `max_records` records, and consumption halts at the cap:
whenever the chunk loop over a chunk prefix has already reached the cap,
appending further chunks leaves the output unchanged (they are never
read). -/
theorem build_patient_labs_cap (obs : Option (List ObsRow))
    (id_mapping : List (String × String)) (max_records chunk_size : Nat) :
    (build_patient_labs obs id_mapping max_records chunk_size).length ≤ max_records
    ∧ (∀ (c1 c2 : List (List ObsRow)) (acc : List PatientLab),
        max_records ≤ (labsLoop id_mapping max_records acc c1).length →
        labsLoop id_mapping max_records acc (c1 ++ c2)
          = labsLoop id_mapping max_records acc c1) := by
  constructor
  · unfold build_patient_labs
    cases obs with
    | none => simp
    | some rows => exact labsLoop_le _ _ _ _ (by simp)
  · intro c1 c2 acc h
    exact labsLoop_halt c1 c2 _ _ acc h

/-- Witness for C5: with cap 1, the first one-row chunk fills the output
and a second chunk does not change it. -/
theorem build_patient_labs_cap_witness :
    labsLoop [("u1", "SYN-00001")] 1 [] ([[sampleObsA]] ++ [[sampleObsB]])
      = labsLoop [("u1", "SYN-00001")] 1 [] [[sampleObsA]] :=
  (build_patient_labs_cap (some []) [("u1", "SYN-00001")] 1 25000).2
    [[sampleObsA]] [[sampleObsB]] [] (by decide)

/-- C9 (the mandatory half holds, the optional half fails): a missing
subject input aborts the run with a nonzero exit before any output file
is written; but a missing optional `conditions.csv` does not degrade to
empty outputs: `load_synthea_csv` returns the column-less empty frame and
`extract_condition_codes` then evaluates `df["PATIENT"]`, raising an
uncaught `KeyError` that aborts the run (same for `medications.csv`);
only a missing `observations.csv` degrades as specified, yielding empty
lab outputs. -/
theorem main_missing_input_handling :
    (∀ (pyHash : String → Int) (inp : InputDir) (pl ll : Nat),
        inp.patients = none → ∃ e, mainModel pyHash inp pl ll = .error e)
    ∧ mainModel (fun _ => 0)
        { patients := some samplePatientsDup, conditions := none,
          medications := some [], observations := some [] } 2000 50000
        = .error "KeyError: PATIENT"
    ∧ mainModel (fun _ => 0)
        { patients := some samplePatientsDup, conditions := some [],
          medications := some [], observations := none } 2000 50000
        = .ok
          { condition_codes := []
            medication_codes := []
            lab_codes := []
            patients := (transform_patients samplePatientsDup 2000).1
            patient_conditions := []
            patient_medications := []
            patient_labs := [] } := by
  refine ⟨?_, ?_, ?_⟩
  · intro pyHash inp pl ll hp
    refine ⟨"No patients found. Aborting.", ?_⟩
    unfold mainModel
    rw [hp]
    rfl
  · rfl
  · rfl

/-- Witness for C9: the model aborts with an error on an input directory
with no subject file. -/
theorem main_missing_input_handling_witness :
    ∃ e, mainModel (fun _ => 0) {} 2000 50000 = Except.error e :=
  main_missing_input_handling.1 (fun _ => 0) {} 2000 50000 rfl
